import Mathlib

/-!
Verification of the retrieval-and-answering core of the raGG study assistant.

The Python sources under backend/app are shallowly embedded: each relevant
class becomes a namespace, each method a Lean function.  External services
(the Qdrant index, the embedding service, LLM providers, the cross-encoder)
are opaque collaborators; they are modelled as explicit function parameters
(for embeddings and similarity scoring) or as oracle values (for calls that
may raise).  Machine details that the claims do not touch:

* uuid4 point ids are modelled by a fresh counter carried in the store;
* ISO-8601 timestamp strings, which the code compares lexicographically and
  which order exactly like the instants they denote, are modelled as Nat;
* floating-point similarity scores are modelled as an opaque Int-valued
  scoring function (only their ordering matters to the code).
-/

namespace RaGG

/-- Stable insertion of an element into a list: `a` is placed before the
first element `b` with `le a b`.  Used to model result ordering, since the
library mergeSort does not reduce in the kernel. -/
def insertBy {α : Type} (le : α → α → Bool) (a : α) : List α → List α
  | [] => [a]
  | b :: bs => if le a b then a :: b :: bs else b :: insertBy le a bs

/-- Stable insertion sort with respect to a boolean relation. -/
def sortBy {α : Type} (le : α → α → Bool) : List α → List α
  | [] => []
  | a :: as => insertBy le a (sortBy le as)

/-- Test whether the first list is a prefix of the second (kernel
computable, used to model Python substring operations). -/
def startsWithChars : List Char → List Char → Bool
  | [], _ => true
  | _ :: _, [] => false
  | a :: as, b :: bs => a == b && startsWithChars as bs

/-- Test whether the needle occurs contiguously in the haystack, as the
Python in operator on strings. -/
def containsChars (needle : List Char) : List Char → Bool
  | [] => needle.isEmpty
  | h :: t => startsWithChars needle (h :: t) || containsChars needle t

/-- Python str lower, character by character. -/
def lowerStr (s : String) : String := String.mk (s.data.map Char.toLower)

/-- Python in operator on strings. -/
def containsSub (hay sub : String) : Bool := containsChars sub.data hay.data

/-- Replacement engine of Python str.replace: all non-overlapping
occurrences, left to right.  The fuel argument (instantiated with the
length of the subject) only discharges termination. -/
def replaceCharsF (old new : List Char) : Nat → List Char → List Char
  | 0, s => s
  | _ + 1, [] => []
  | fuel + 1, h :: t =>
    if !old.isEmpty && startsWithChars old (h :: t) then
      new ++ replaceCharsF old new fuel (List.drop (old.length - 1) t)
    else h :: replaceCharsF old new fuel t

/-- Python str.replace. -/
def pyReplace (s old new : String) : String :=
  String.mk (replaceCharsF old.data new.data s.data.length s.data)

namespace VectorStore

/-- Retention window of the store (DATA_RETENTION_HOURS, in the abstract
time unit used for all timestamps). -/
def DATA_RETENTION : Nat := 1

/-- Limit of the scroll call used by delete_source to collect the point ids
of the chunks of a source (the code never paginates past it). -/
def DELETE_SCROLL_LIMIT : Nat := 10000

/-- Limit of the scroll call used by _list_all_sources (the code never
paginates past it). -/
def SOURCES_SCROLL_LIMIT : Nat := 1000

/-- Payload stored with every document point by add_documents: the cleaned
per-chunk metadata plus the fields the method stamps on every chunk. -/
structure DocPayload where
  extra       : List (String × String)
  source_id   : String
  source_name : String
  source_type : String
  content     : String
  created_at  : Nat
  expires_at  : Nat
  user_id     : String
deriving DecidableEq, Repr

/-- A point of the documents collection. -/
structure DocPoint where
  id      : Nat
  vector  : List Int
  payload : DocPayload
deriving DecidableEq, Repr

/-- Payload of a record of the sources metadata collection. -/
structure SourcePayload where
  name       : String
  type       : String
  chunks     : Nat
  created_at : Nat
  expires_at : Nat
  user_id    : String
deriving DecidableEq, Repr

/-- A point of the sources metadata collection; its id is the source id. -/
structure SourcePoint where
  id      : String
  vector  : List Int
  payload : SourcePayload
deriving DecidableEq, Repr

/-- State of the two Qdrant collections; nextId models uuid4 freshness. -/
structure Store where
  docs    : List DocPoint
  sources : List SourcePoint
  nextId  : Nat
deriving DecidableEq, Repr

/-- A chunk record handed over by an ingestion adapter. -/
structure Chunk where
  content  : String
  metadata : List (String × String)
deriving DecidableEq, Repr

/-- Opaque external collaborators of the store: the embedding service and
the similarity scoring of the index. -/
structure Env where
  embedText  : String → List Int
  embedQuery : String → List Int
  simScore   : List Int → List Int → Int

/-- Metadata dictionary of a formatted search result: the whole payload
except the content key. -/
structure ResultMeta where
  extra       : List (String × String)
  source_id   : String
  source_name : String
  source_type : String
  created_at  : Nat
  expires_at  : Nat
  user_id     : String
deriving DecidableEq, Repr

/-- Projection of a document payload to the formatted result metadata. -/
def DocPayload.meta (p : DocPayload) : ResultMeta :=
  { extra := p.extra, source_id := p.source_id, source_name := p.source_name
    source_type := p.source_type, created_at := p.created_at
    expires_at := p.expires_at, user_id := p.user_id }

/-- Formatted search result: content, metadata and score. -/
structure RetrievalResult where
  content  : String
  metadata : ResultMeta
  score    : Int
deriving DecidableEq, Repr

/-- Upsert into the sources collection: a point with the same id is
replaced, otherwise the point is appended. -/
def upsertSource (sources : List SourcePoint) (p : SourcePoint) : List SourcePoint :=
  if sources.any (fun s => s.id == p.id) then
    sources.map (fun s => if s.id == p.id then p else s)
  else
    sources ++ [p]

/-- Point built by add_documents for the chunk at index ic.1: the chunk is
embedded and its payload is stamped with the shared timestamps, the source
fields and the user id. -/
def mkDocPoint (env : Env) (source_id source_name source_type user_id : String)
    (created_at expires_at baseId : Nat) (ic : Nat × Chunk) : DocPoint :=
  { id := baseId + ic.1
    vector := env.embedText ic.2.content
    payload :=
      { extra := ic.2.metadata
        source_id := source_id
        source_name := source_name
        source_type := source_type
        content := ic.2.content
        created_at := created_at
        expires_at := expires_at
        user_id := user_id } }

/-- Embedding of VectorStore.add_documents.  An empty chunk list returns at
once.  Otherwise every chunk is embedded, stamped with the shared
timestamps and the user id, upserted as a fresh point of the documents
collection, and one source metadata record is upserted. -/
def addDocuments (env : Env) (st : Store) (chunks : List Chunk)
    (source_id source_name source_type user_id : String) (now : Nat) : Store :=
  if chunks.isEmpty then st
  else
    let created_at := now
    let expires_at := now + DATA_RETENTION
    { docs := st.docs ++ chunks.enum.map
        (mkDocPoint env source_id source_name source_type user_id
          created_at expires_at st.nextId)
      sources := upsertSource st.sources
        { id := source_id
          vector := env.embedText source_name
          payload :=
            { name := source_name, type := source_type, chunks := chunks.length
              created_at := created_at, expires_at := expires_at
              user_id := user_id } }
      nextId := st.nextId + chunks.length }

/-- Filter built by VectorStore.search: a mandatory equality condition on
user_id, and a condition on source_id when source_filter is truthy (in
Python an empty string is falsy, so it adds no condition). -/
def matchesFilter (source_filter : Option String) (user_id : String) (p : DocPoint) : Bool :=
  p.payload.user_id == user_id &&
    (match source_filter with
     | some sf => if sf == "" then true else p.payload.source_id == sf
     | none => true)

/-- Embedding of VectorStore.search: embed the query, filter, score, order
by descending score, truncate to top_k, and format each point. -/
def search (env : Env) (st : Store) (query : String) (top_k : Nat)
    (source_filter : Option String) (user_id : String) : List RetrievalResult :=
  let qv := env.embedQuery query
  let filtered := st.docs.filter (matchesFilter source_filter user_id)
  let scored := filtered.map (fun p =>
    ({ content := p.payload.content, metadata := p.payload.meta
       score := env.simScore qv p.vector } : RetrievalResult))
  (sortBy (fun a b => b.score ≤ a.score) scored).take top_k

/-- Scroll filter of delete_source: both the source id and the user id of
the point must match. -/
def matchesDelete (source_id user_id : String) (p : DocPoint) : Bool :=
  p.payload.source_id == source_id && p.payload.user_id == user_id

/-- Embedding of VectorStore.delete_source: scroll (bounded by the scroll
limit) for the point ids matching source_id and user_id, delete those
points, then delete the source metadata record by id. -/
def deleteSource (st : Store) (source_id : String) (user_id : String) : Store :=
  let matched := (st.docs.filter (matchesDelete source_id user_id)).take DELETE_SCROLL_LIMIT
  let point_ids := matched.map (fun p => p.id)
  let docs := if point_ids.isEmpty then st.docs
    else st.docs.filter (fun p => !(point_ids.contains p.id))
  { st with docs := docs
            sources := st.sources.filter (fun s => s.id != source_id) }

/-- Embedding of VectorStore._list_all_sources: an unfiltered scroll over
the sources collection, bounded by the scroll limit. -/
def listAllSources (st : Store) : List SourcePoint :=
  st.sources.take SOURCES_SCROLL_LIMIT

/-- Expiry test of the cleanup loop (the code compares ISO timestamp
strings lexicographically, which orders exactly like the instants; the
expires_at field is always set by add_documents, so its truthiness test
never fails). -/
def isExpired (now : Nat) (s : SourcePoint) : Bool :=
  decide (s.payload.expires_at < now)

/-- Body of the cleanup loop: an expired snapshot entry is deleted from
the current store and counted, any other entry is skipped. -/
def cleanupStep (now : Nat) (acc : Store × Nat) (s : SourcePoint) : Store × Nat :=
  if isExpired now s then (deleteSource acc.1 s.id s.payload.user_id, acc.2 + 1)
  else acc

/-- Embedding of VectorStore.cleanup_expired_sources: walk the snapshot
returned by _list_all_sources and delete every source whose expires_at is
earlier than the current time, counting the deletions. -/
def cleanupExpiredSources (st : Store) (now : Nat) : Store × Nat :=
  (listAllSources st).foldl (cleanupStep now) (st, 0)

/-- Ids of the expired records of a snapshot. -/
def expiredIds (now : Nat) (l : List SourcePoint) : List String :=
  (l.filter (isExpired now)).map (fun s => s.id)

/-- Concrete environment for witnesses and counterexamples: a constant
embedding and a constant similarity score. -/
def testEnv : Env :=
  { embedText := fun _ => [1], embedQuery := fun _ => [1], simScore := fun _ _ => 0 }

/-- Empty store. -/
def emptyStore : Store := { docs := [], sources := [], nextId := 0 }

/-- One-chunk batch for witnesses. -/
def testChunk : Chunk := { content := "c1", metadata := [] }

/-- Batch of 10001 identical chunks: one more than the scroll limit used by
delete_source. -/
def bigChunks : List Chunk := List.replicate 10001 { content := "c", metadata := [] }

/-- Store holding one source of 10001 chunks, obtained by one call of
add_documents. -/
def bigStore : Store := addDocuments testEnv emptyStore bigChunks "s" "n" "text" "u" 0

/-- Document point number i of bigStore. -/
def bigDoc (i : Nat) : DocPoint :=
  mkDocPoint testEnv "s" "n" "text" "u" 0 1 0 (i, { content := "c", metadata := [] })

/-- Source metadata record of bigStore. -/
def bigSource : SourcePoint :=
  { id := "s", vector := testEnv.embedText "n"
    payload := { name := "n", type := "text", chunks := 10001
                 created_at := 0, expires_at := 1, user_id := "u" } }

/-- Distinct source id number i (the string of i letters a). -/
def srcId (i : Nat) : String := String.mk (List.replicate i 'a')

/-- Source record number i of srcStore, already expired at time 2. -/
def mkBigSource (i : Nat) : SourcePoint :=
  { id := srcId i, vector := [1]
    payload := { name := "n", type := "text", chunks := 1
                 created_at := 0, expires_at := 1, user_id := "u" } }

/-- Store with 1001 expired sources: one more than the sources scroll
limit of _list_all_sources. -/
def srcStore : Store :=
  { docs := [], sources := (List.range 1001).map mkBigSource, nextId := 0 }

/-- Store with two single-chunk sources of one user, ingested at times 0
and 4; at time 5 only the first has expired. -/
def wStore : Store :=
  addDocuments testEnv
    (addDocuments testEnv emptyStore [testChunk] "sA" "n" "text" "u" 0)
    [testChunk] "sB" "n" "text" "u" 4

end VectorStore

namespace QueryExpander

/-- Embedding of QueryExpander.expand: the original query first, two
interrogative rephrasings when the lowercased query contains the word
what, no contribution from retrieved_context (that branch of the code is
a pass), truncated to 3. -/
def expand (original_query : String) (retrieved_context : Option (List String)) : List String :=
  let expanded := [original_query]
  let expanded :=
    if containsSub (lowerStr original_query) "what" then
      expanded ++ [pyReplace original_query "what" "how",
                   pyReplace original_query "what" "why"]
    else expanded
  expanded.take 3

end QueryExpander

namespace Reranker

/-- Embedding of Reranker.rerank: with no cross-encoder model the input
order is kept and truncated; with a model (an opaque scoring function),
pairs are scored and stably sorted by descending score, then truncated.
A scoring exception falls back to the truncated input; exceptions of the
opaque scorer are not modelled. -/
def rerank (scorer : Option (String → String → Int)) (query : String)
    (documents : List VectorStore.RetrievalResult) (top_k : Nat) :
    List VectorStore.RetrievalResult :=
  if documents.isEmpty then []
  else
    match scorer with
    | none => documents.take top_k
    | some f =>
      ((sortBy (fun a b => b.2 ≤ a.2)
        (documents.map (fun d => (d, f query d.content)))).map (fun x => x.1)).take top_k

end Reranker

namespace MultiHop

open VectorStore

/-- Query used by the next hop: the first element of the expansion of the
original query against the contents just retrieved, or the current query
when the expansion is empty. -/
def nextQuery (original_query current_query : String)
    (reranked : List RetrievalResult) : String :=
  match QueryExpander.expand original_query (some (reranked.map (fun r => r.content))) with
  | [] => current_query
  | q :: _ => q

/-- Loop of MultiHopRetrieval.retrieve: with n + 1 hops left, search the
store for 2 times top_k candidates under the current query, stop on an
empty hop, re-rank to top_k, accumulate, and continue with the next query
(expanded only when another hop remains). -/
def retrieveHops (env : Env) (st : Store) (scorer : Option (String → String → Int))
    (query : String) (top_k : Nat) (source_filter : Option String) (user_id : String) :
    Nat → String → List RetrievalResult → List RetrievalResult
  | 0, _, acc => acc
  | n + 1, current_query, acc =>
    let results := search env st current_query (top_k * 2) source_filter user_id
    if results.isEmpty then acc
    else
      let reranked := Reranker.rerank scorer current_query results top_k
      if 0 < n then
        retrieveHops env st scorer query top_k source_filter user_id n
          (nextQuery query current_query reranked) (acc ++ reranked)
      else
        retrieveHops env st scorer query top_k source_filter user_id n
          current_query (acc ++ reranked)

/-- Deduplication pass of retrieve: content identity (the Python code
keys on the hash of the content, modelled injectively), keeping the first
occurrence, in order. -/
def dedupByContent : List RetrievalResult → List String → List RetrievalResult
  | [], _ => []
  | r :: rest, seen =>
    if seen.contains r.content then dedupByContent rest seen
    else r :: dedupByContent rest (r.content :: seen)

/-- Embedding of MultiHopRetrieval.retrieve: run the hops starting from
the original query, deduplicate the pool by content keeping first
occurrences, truncate to top_k. -/
def retrieve (env : Env) (st : Store) (scorer : Option (String → String → Int))
    (query : String) (top_k max_hops : Nat) (source_filter : Option String)
    (user_id : String) : List RetrievalResult :=
  (dedupByContent
    (retrieveHops env st scorer query top_k source_filter user_id max_hops query [])
    []).take top_k

/-- Instrumentation of the retrieve loop recording the query string each
executed hop hands to the store, in order. -/
def hopQueries (env : Env) (st : Store) (scorer : Option (String → String → Int))
    (query : String) (top_k : Nat) (source_filter : Option String) (user_id : String) :
    Nat → String → List String
  | 0, _ => []
  | n + 1, current_query =>
    current_query ::
      (let results := search env st current_query (top_k * 2) source_filter user_id
       if results.isEmpty then []
       else
         let reranked := Reranker.rerank scorer current_query results top_k
         if 0 < n then
           hopQueries env st scorer query top_k source_filter user_id n
             (nextQuery query current_query reranked)
         else
           hopQueries env st scorer query top_k source_filter user_id n current_query)

end MultiHop

namespace VectorStore

/-- Store holding one chunk with content alpha. -/
def storeA : Store := addDocuments testEnv emptyStore [{ content := "alpha", metadata := [] }] "sA" "n" "text" "u" 0

/-- Store holding one chunk with content beta. -/
def storeB : Store := addDocuments testEnv emptyStore [{ content := "beta", metadata := [] }] "sB" "n" "text" "u" 0

/-- Search result produced for the single chunk of storeA. -/
def resultAlpha : RetrievalResult :=
  { content := "alpha"
    metadata := { extra := [], source_id := "sA", source_name := "n"
                  source_type := "text", created_at := 0, expires_at := 1
                  user_id := "u" }
    score := 0 }

end VectorStore

namespace Engine

/-- A conversation turn. -/
structure Msg where
  role : String
  content : String
deriving DecidableEq, Repr

/-- Python negative slice l[-k:]: the whole list when k is 0 (Python
reads l[-0:] as l[0:]), otherwise the last k elements. -/
def takeLast {α : Type} (k : Nat) (l : List α) : List α :=
  if k = 0 then l else l.drop (l.length - k)

/-- Embedding of AgenticRAGEngine._trim_conversation_history on the
history of one session: nothing happens unless the history is longer
than max_messages; otherwise all system turns, in order, are placed
ahead of the last max_messages non-system turns. -/
def trimConversationHistory (messages : List Msg) (max_messages : Nat) : List Msg :=
  if messages.length > max_messages then
    (messages.filter (fun m => m.role == "system"))
      ++ takeLast max_messages (messages.filter (fun m => !(m.role == "system")))
  else messages

/-- History of 25 turns of one session: one system turn followed by 24
alternating user and assistant turns. -/
def msgs25 : List Msg :=
  { role := "system", content := "sys" } ::
    (List.range 24).map (fun i =>
      if i % 2 = 0 then ({ role := "user", content := "q" } : Msg)
      else { role := "assistant", content := "a" })

/-- Event of the query_stream sequence; payloads are reduced to the
parts the claims read (the error text, the result and citation counts,
the chunk text). -/
inductive StreamEvent where
  | webSearch (results : Nat)
  | chunk (content : String)
  | done (citations : Nat)
  | error (msg : String)
deriving DecidableEq, Repr

/-- Oracle for the external effects of one query_stream run: whether a
provider is available (directly or through the router), whether a web
search tool is registered, the outcome of executing it (a raised
exception, or a success flag with a result count), the outcome of
retrieval (multi-hop and plain search are abstracted as one oracle that
returns a chunk count or raises), and the generation stream — the
chunks yielded before it either ends normally or raises. -/
structure StreamEnv where
  providerAvailable : Bool
  webToolAvailable : Bool
  webToolRun : Except String (Bool × Nat)
  retrievalRun : Except String Nat
  genChunks : List String
  genError : Option String

/-- Error text yielded when web search is requested with no tool. -/
def webUnavailableMsg : String :=
  "Web search requested but no web search tool available (missing API keys)"

/-- Explicit web-search phase of query_stream: the events yielded, the
exception escaping to the outer handler if the tool raised, and the
count of web results gathered.  When no tool is registered the code
yields an error event and FALLS THROUGH — there is no return after that
yield. -/
def webPhase (env : StreamEnv) (useWebSearch : Bool) :
    List StreamEvent × Option String × Nat :=
  if useWebSearch then
    if env.webToolAvailable then
      match env.webToolRun with
      | .error e => ([], some e, 0)
      | .ok (success, nres) =>
        if success then ([.webSearch nres], none, nres) else ([], none, 0)
    else ([.error webUnavailableMsg], none, 0)
  else ([], none, 0)

/-- Fallback web search of query_stream: runs only when retrieval found
nothing and web search was not already requested. -/
def fallbackPhase (env : StreamEnv) (useWebSearch : Bool) (nres webCount : Nat) :
    List StreamEvent × Option String × Nat :=
  if nres = 0 && !useWebSearch then
    if env.webToolAvailable then
      match env.webToolRun with
      | .error e => ([], some e, webCount)
      | .ok (success, mres) =>
        if success then ([.webSearch mres], none, mres) else ([], none, webCount)
    else ([], none, webCount)
  else ([], none, webCount)

/-- Generation phase: the streamed chunk events, then the terminal
event — an error if the provider stream raised, else done carrying the
citation count (retrieved chunks plus web results). -/
def genPhase (env : StreamEnv) (nres webCount : Nat) : List StreamEvent :=
  (env.genChunks.map (fun c => StreamEvent.chunk c)) ++
    (match env.genError with
     | some e => [.error e]
     | none => [.done (nres + webCount)])

/-- Tail of the run after retrieval returned nres chunks. -/
def afterRetrieval (env : StreamEnv) (useWebSearch : Bool) (nres webCount : Nat) :
    List StreamEvent :=
  match fallbackPhase env useWebSearch nres webCount with
  | (evs2, some e, _) => evs2 ++ [.error e]
  | (evs2, none, webCount2) => evs2 ++ genPhase env nres webCount2

/-- Embedding of AgenticRAGEngine.query_stream at the level of the
emitted event sequence: a missing provider is one error event; any
exception escaping a phase reaches the outer except, which appends one
error event after the events already yielded; a completed run appends
one done event. -/
def queryStream (env : StreamEnv) (useWebSearch : Bool) : List StreamEvent :=
  if !env.providerAvailable then [.error "No LLM provider available"]
  else
    match webPhase env useWebSearch with
    | (evs, some e, _) => evs ++ [.error e]
    | (evs, none, webCount) =>
      evs ++ (match env.retrievalRun with
              | .error e => [.error e]
              | .ok nres => afterRetrieval env useWebSearch nres webCount)

/-- Test for a done event. -/
def isDone : StreamEvent → Bool
  | .done _ => true
  | _ => false

/-- Test for an error event. -/
def isError : StreamEvent → Bool
  | .error _ => true
  | _ => false

/-- Test for a terminal event. -/
def isTerminal (e : StreamEvent) : Bool := isDone e || isError e

/-- Environment of the C2 counterexample: provider up, web search
requested but no tool registered, retrieval finds one chunk, generation
streams one chunk and completes. -/
def envCE : StreamEnv :=
  { providerAvailable := true, webToolAvailable := false
    webToolRun := .ok (true, 1), retrievalRun := .ok 1
    genChunks := ["hi"], genError := none }

end Engine

namespace ToolExec

/-- Result record of a tool invocation; the data payload type is opaque
to the executor (the metadata field, unread by the executor, is not
modelled). -/
structure ToolResult (α : Type) where
  success : Bool
  data : Option α
  error : Option String
deriving DecidableEq, Repr

/-- A registered tool as the executor sees it: a name, a parameter
validator, and an execution that either returns a ToolResult or raises
an exception (modelled by Except). -/
structure Tool (α β : Type) where
  name : String
  validateParams : β → Bool
  execute : β → Except String (ToolResult α)

/-- One record of the in-memory execution history. -/
structure HistEntry (β : Type) where
  tool : String
  arguments : β
  success : Bool
  timestamp : String
deriving DecidableEq, Repr

/-- Embedding of ToolExecutor.execute_tool: look the tool up by name,
validate the parameters, execute, and record the invocation.  An unknown
tool, invalid parameters, or an exception raised by the tool all yield a
failed ToolResult; the history append sits after the execution inside
the try block, so only a non-raising execution is recorded. -/
def executeTool {α β : Type} (registry : List (Tool α β))
    (history : List (HistEntry β)) (ts : String)
    (tool_name : String) (arguments : β) :
    ToolResult α × List (HistEntry β) :=
  match registry.find? (fun t => t.name == tool_name) with
  | none =>
    ({ success := false, data := none
       error := some ("Tool " ++ tool_name ++ " not found") }, history)
  | some t =>
    if !(t.validateParams arguments) then
      ({ success := false, data := none
         error := some ("Invalid parameters for tool " ++ tool_name) }, history)
    else
      match t.execute arguments with
      | .ok r =>
        (r, history ++ [{ tool := tool_name, arguments := arguments
                          success := r.success, timestamp := ts }])
      | .error e =>
        ({ success := false, data := none
           error := some ("Tool execution error: " ++ e) }, history)

/-- Tool that always raises. -/
def boomTool : Tool Unit Nat :=
  { name := "boom", validateParams := fun _ => true
    execute := fun _ => .error "kaboom" }

/-- Tool that returns its argument successfully. -/
def okTool : Tool Nat Nat :=
  { name := "ok", validateParams := fun _ => true
    execute := fun n => .ok { success := true, data := some n, error := none } }

end ToolExec

namespace Calculator

/-- A Python value reachable inside the calculator eval: a number
(modelled as Rat; the concrete claims only use exact values) or one of
the whitelisted callables, identified by its name. -/
inductive PyVal where
  | num (q : Rat)
  | fn (name : String)
deriving DecidableEq, Repr

/-- Public names of the math module (no leading double underscore), as
collected by the ALLOWED_NAMES comprehension. -/
def mathNames : List String :=
  ["acos", "acosh", "asin", "asinh", "atan", "atan2", "atanh", "cbrt",
   "ceil", "comb", "copysign", "cos", "cosh", "degrees", "dist", "e",
   "erf", "erfc", "exp", "exp2", "expm1", "fabs", "factorial", "floor",
   "fmod", "frexp", "fsum", "gamma", "gcd", "hypot", "inf", "isclose",
   "isfinite", "isinf", "isnan", "isqrt", "lcm", "ldexp", "lgamma",
   "log", "log10", "log1p", "log2", "modf", "nan", "nextafter", "perm",
   "pi", "pow", "prod", "radians", "remainder", "sin", "sinh", "sqrt",
   "tan", "tanh", "tau", "trunc", "ulp"]

/-- The float-valued constants of the math module; their numeric values
are floating point and abstracted to 0 — no claim reads them. -/
def mathConstants : List String := ["pi", "e", "tau", "inf", "nan"]

/-- Embedding of CalculatorTool.ALLOWED_NAMES: the public math names
plus the six whitelisted builtins. -/
def ALLOWED_NAMES : List (String × PyVal) :=
  (mathNames.map (fun n =>
    (n, if mathConstants.contains n then PyVal.num 0 else PyVal.fn n)))
  ++ [("abs", .fn "abs"), ("round", .fn "round"), ("min", .fn "min"),
      ("max", .fn "max"), ("sum", .fn "sum"), ("pow", .fn "pow")]

/-- Name resolution of eval with empty builtins: only the whitelist. -/
def lookupName (s : String) : Option PyVal :=
  (ALLOWED_NAMES.find? (fun p => p.1 == s)).map (fun p => p.2)

/-- Exact rational addition, written through mkRat so that the kernel
can evaluate it (the library arithmetic on Rat does not reduce). -/
def ratAdd (a b : Rat) : Rat := mkRat (a.num * b.den + b.num * a.den) (a.den * b.den)

/-- Exact rational subtraction through mkRat. -/
def ratSub (a b : Rat) : Rat := mkRat (a.num * b.den - b.num * a.den) (a.den * b.den)

/-- Exact rational multiplication through mkRat. -/
def ratMul (a b : Rat) : Rat := mkRat (a.num * b.num) (a.den * b.den)

/-- Exact rational division through mkRat (true division; the caller
guards the zero divisor). -/
def ratDiv (a b : Rat) : Rat :=
  mkRat (a.num * b.den * (if b.num < 0 then -1 else 1)) (a.den * b.num.natAbs)

/-- Exact rational negation through mkRat. -/
def ratNeg (a : Rat) : Rat := mkRat (-a.num) a.den

/-- Exact rational comparison by cross multiplication (denominators are
positive). -/
def ratLe (a b : Rat) : Bool := a.num * b.den ≤ b.num * a.den

/-- Application of a whitelisted callable.  abs, and two-argument min
and max, are exact on Rat; the remaining functions return floating-point
results and are abstracted to 0 (no claim reads their values). -/
def applyFn (f : String) (args : List PyVal) : Except String PyVal :=
  match f, args with
  | "abs", [.num a] => .ok (.num (mkRat a.num.natAbs a.den))
  | "min", [.num a, .num b] => .ok (.num (if ratLe a b then a else b))
  | "max", [.num a, .num b] => .ok (.num (if ratLe a b then b else a))
  | _, _ => .ok (.num 0)

/-- Characters kept by the sanitizer regex of execute: digits, the four
operators, parentheses, dot, whitespace, comma, ascii letters and the
underscore.  Everything else — quotes, brackets, percent — is dropped. -/
def allowedChar (c : Char) : Bool :=
  c.isDigit || c == '+' || c == '-' || c == '*' || c == '/' || c == '(' ||
  c == ')' || c == '.' || c == ' ' || c == '\t' || c == '\n' || c == '\r' ||
  c == ',' || (decide ('a' ≤ c) && decide (c ≤ 'z')) || (decide ('A' ≤ c) && decide (c ≤ 'Z')) || c == '_'

/-- Embedding of the re.sub sanitization. -/
def sanitize (s : String) : String := String.mk (s.data.filter allowedChar)

/-- Whitespace test of the empty-expression guard. -/
def isSpaceChar (c : Char) : Bool :=
  c == ' ' || c == '\t' || c == '\n' || c == '\r'

/-- Token of the sanitized expression grammar. -/
inductive Tok where
  | num (q : Rat)
  | ident (s : String)
  | plus
  | minus
  | star
  | slash
  | lparen
  | rparen
  | comma
deriving DecidableEq, Repr

/-- First character of a Python identifier. -/
def isIdentStart (c : Char) : Bool :=
  (decide ('a' ≤ c) && decide (c ≤ 'z')) || (decide ('A' ≤ c) && decide (c ≤ 'Z')) || c == '_'

/-- Later character of a Python identifier. -/
def isIdentChar (c : Char) : Bool := isIdentStart c || c.isDigit

/-- Numeric value of a digit run. -/
def digitsToNat (l : List Char) : Nat :=
  l.foldl (fun a c => a * 10 + (c.toNat - 48)) 0

/-- Rational value of a Python numeric literal int.frac, written through
mkRat so that the kernel can evaluate it. -/
def litToRat (intPart fracPart : List Char) : Rat :=
  mkRat (Int.ofNat (digitsToNat intPart * 10 ^ fracPart.length + digitsToNat fracPart))
    (10 ^ fracPart.length)

/-- Tokenizer of the sanitized text; fuel (instantiated with one more
than the length) only discharges termination, each step consumes at
least one character.  An unexpected character is a SyntaxError — eval
raises, execute catches. -/
def tokenize : Nat → List Char → Except String (List Tok)
  | 0, _ => .error "SyntaxError"
  | _, [] => .ok []
  | fuel + 1, c :: cs =>
    if isSpaceChar c then tokenize fuel cs
    else if c == '+' then (tokenize fuel cs).map (fun ts => Tok.plus :: ts)
    else if c == '-' then (tokenize fuel cs).map (fun ts => Tok.minus :: ts)
    else if c == '*' then (tokenize fuel cs).map (fun ts => Tok.star :: ts)
    else if c == '/' then (tokenize fuel cs).map (fun ts => Tok.slash :: ts)
    else if c == '(' then (tokenize fuel cs).map (fun ts => Tok.lparen :: ts)
    else if c == ')' then (tokenize fuel cs).map (fun ts => Tok.rparen :: ts)
    else if c == ',' then (tokenize fuel cs).map (fun ts => Tok.comma :: ts)
    else if c.isDigit then
      let intPart := (c :: cs).takeWhile (fun d => d.isDigit)
      let rest := (c :: cs).dropWhile (fun d => d.isDigit)
      match rest with
      | '.' :: r2 =>
        let fracPart := r2.takeWhile (fun d => d.isDigit)
        let r3 := r2.dropWhile (fun d => d.isDigit)
        (tokenize fuel r3).map (fun ts => Tok.num (litToRat intPart fracPart) :: ts)
      | _ => (tokenize fuel rest).map (fun ts => Tok.num (litToRat intPart []) :: ts)
    else if c == '.' then
      let fracPart := cs.takeWhile (fun d => d.isDigit)
      let r2 := cs.dropWhile (fun d => d.isDigit)
      if fracPart.isEmpty then .error "SyntaxError"
      else (tokenize fuel r2).map (fun ts => Tok.num (litToRat [] fracPart) :: ts)
    else if isIdentStart c then
      let identPart := (c :: cs).takeWhile isIdentChar
      let rest := (c :: cs).dropWhile isIdentChar
      (tokenize fuel rest).map (fun ts => Tok.ident (String.mk identPart) :: ts)
    else .error "SyntaxError"

/-- Arithmetic operator of the grammar. -/
inductive BinOp where
  | add
  | sub
  | mul
  | div
deriving DecidableEq, Repr

/-- Abstract syntax of the sanitized expression subset reachable through
the calculator: literals, names, unary sign, arithmetic, calls. -/
inductive PyExpr where
  | num (q : Rat)
  | name (s : String)
  | pos (a : PyExpr)
  | neg (a : PyExpr)
  | binop (op : BinOp) (a b : PyExpr)
  | call (f : PyExpr) (args : List PyExpr)
deriving Repr

mutual

/-- Recursive-descent parser, expression level: term (('+'|'-') term)*. -/
def parseExpr : Nat → List Tok → Except String (PyExpr × List Tok)
  | 0, _ => .error "SyntaxError"
  | fuel + 1, ts =>
    match parseTerm fuel ts with
    | .error e => .error e
    | .ok (a, ts1) => parseExprRest fuel a ts1

def parseExprRest : Nat → PyExpr → List Tok → Except String (PyExpr × List Tok)
  | 0, _, _ => .error "SyntaxError"
  | fuel + 1, a, Tok.plus :: ts =>
    (match parseTerm fuel ts with
     | .error e => .error e
     | .ok (b, ts1) => parseExprRest fuel (PyExpr.binop BinOp.add a b) ts1)
  | fuel + 1, a, Tok.minus :: ts =>
    (match parseTerm fuel ts with
     | .error e => .error e
     | .ok (b, ts1) => parseExprRest fuel (PyExpr.binop BinOp.sub a b) ts1)
  | _ + 1, a, ts => .ok (a, ts)

/-- Term level: factor (('*'|'/') factor)*. -/
def parseTerm : Nat → List Tok → Except String (PyExpr × List Tok)
  | 0, _ => .error "SyntaxError"
  | fuel + 1, ts =>
    match parseFactor fuel ts with
    | .error e => .error e
    | .ok (a, ts1) => parseTermRest fuel a ts1

def parseTermRest : Nat → PyExpr → List Tok → Except String (PyExpr × List Tok)
  | 0, _, _ => .error "SyntaxError"
  | fuel + 1, a, Tok.star :: ts =>
    (match parseFactor fuel ts with
     | .error e => .error e
     | .ok (b, ts1) => parseTermRest fuel (PyExpr.binop BinOp.mul a b) ts1)
  | fuel + 1, a, Tok.slash :: ts =>
    (match parseFactor fuel ts with
     | .error e => .error e
     | .ok (b, ts1) => parseTermRest fuel (PyExpr.binop BinOp.div a b) ts1)
  | _ + 1, a, ts => .ok (a, ts)

/-- Factor level: unary sign or an atom with call suffixes. -/
def parseFactor : Nat → List Tok → Except String (PyExpr × List Tok)
  | 0, _ => .error "SyntaxError"
  | fuel + 1, Tok.plus :: ts =>
    (match parseFactor fuel ts with
     | .error e => .error e
     | .ok (a, ts1) => .ok (PyExpr.pos a, ts1))
  | fuel + 1, Tok.minus :: ts =>
    (match parseFactor fuel ts with
     | .error e => .error e
     | .ok (a, ts1) => .ok (PyExpr.neg a, ts1))
  | fuel + 1, ts =>
    match parseAtom fuel ts with
    | .error e => .error e
    | .ok (a, ts1) => parseTrailers fuel a ts1

/-- Atom level: literal, name, or parenthesised expression. -/
def parseAtom : Nat → List Tok → Except String (PyExpr × List Tok)
  | 0, _ => .error "SyntaxError"
  | _ + 1, Tok.num q :: ts => .ok (PyExpr.num q, ts)
  | _ + 1, Tok.ident s :: ts => .ok (PyExpr.name s, ts)
  | fuel + 1, Tok.lparen :: ts =>
    (match parseExpr fuel ts with
     | .error e => .error e
     | .ok (a, Tok.rparen :: ts1) => .ok (a, ts1)
     | .ok (_, _) => .error "SyntaxError")
  | _ + 1, _ => .error "SyntaxError"

/-- Call suffixes: zero or more parenthesised argument lists. -/
def parseTrailers : Nat → PyExpr → List Tok → Except String (PyExpr × List Tok)
  | 0, _, _ => .error "SyntaxError"
  | fuel + 1, f, Tok.lparen :: Tok.rparen :: ts =>
    parseTrailers fuel (PyExpr.call f []) ts
  | fuel + 1, f, Tok.lparen :: ts =>
    (match parseArgs fuel ts with
     | .error e => .error e
     | .ok (args, Tok.rparen :: ts1) => parseTrailers fuel (PyExpr.call f args) ts1
     | .ok (_, _) => .error "SyntaxError")
  | _ + 1, f, ts => .ok (f, ts)

/-- Comma-separated argument list. -/
def parseArgs : Nat → List Tok → Except String (List PyExpr × List Tok)
  | 0, _ => .error "SyntaxError"
  | fuel + 1, ts =>
    match parseExpr fuel ts with
    | .error e => .error e
    | .ok (a, Tok.comma :: ts1) =>
      (match parseArgs fuel ts1 with
       | .error e => .error e
       | .ok (as, ts2) => .ok (a :: as, ts2))
    | .ok (a, ts1) => .ok ([a], ts1)

end

/-- Whole-input parse: one expression consuming every token. -/
def parse (toks : List Tok) : Except String PyExpr :=
  match parseExpr ((toks.length + 1) * 8) toks with
  | .error e => .error e
  | .ok (a, []) => .ok a
  | .ok (_, _ :: _) => .error "SyntaxError"

/-- Arithmetic of eval on numbers; true division, division by zero
raises. -/
def evalBin (op : BinOp) (va vb : PyVal) : Except String PyVal :=
  match op, va, vb with
  | BinOp.add, .num a, .num b => .ok (.num (ratAdd a b))
  | BinOp.sub, .num a, .num b => .ok (.num (ratSub a b))
  | BinOp.mul, .num a, .num b => .ok (.num (ratMul a b))
  | BinOp.div, .num a, .num b =>
    if b.num == 0 then .error "ZeroDivisionError" else .ok (.num (ratDiv a b))
  | _, _, _ => .error "TypeError"

mutual

/-- Evaluation under the restricted environment of eval: globals hold an
empty builtins table and locals are exactly ALLOWED_NAMES, so a name
resolves through lookupName or raises NameError.  The fuel only
discharges termination of the nested recursion. -/
def evalExpr : Nat → PyExpr → Except String PyVal
  | 0, _ => .error "RecursionError"
  | fuel + 1, e =>
    match e with
    | .num q => .ok (.num q)
    | .name s =>
      (match lookupName s with
       | some v => .ok v
       | none => .error ("NameError: name " ++ s ++ " is not defined"))
    | .pos a =>
      (match evalExpr fuel a with
       | .error e1 => .error e1
       | .ok (.num q) => .ok (.num q)
       | .ok (.fn _) => .error "TypeError")
    | .neg a =>
      (match evalExpr fuel a with
       | .error e1 => .error e1
       | .ok (.num q) => .ok (.num (ratNeg q))
       | .ok (.fn _) => .error "TypeError")
    | .binop op a b =>
      (match evalExpr fuel a with
       | .error e1 => .error e1
       | .ok va =>
         match evalExpr fuel b with
         | .error e2 => .error e2
         | .ok vb => evalBin op va vb)
    | .call f args =>
      (match evalExpr fuel f with
       | .error e1 => .error e1
       | .ok vf =>
         match evalArgs fuel args with
         | .error e2 => .error e2
         | .ok vargs =>
           match vf with
           | .num _ => .error "TypeError: not callable"
           | .fn n => applyFn n vargs)

/-- Evaluation of an argument list, left to right. -/
def evalArgs : Nat → List PyExpr → Except String (List PyVal)
  | 0, _ => .error "RecursionError"
  | _ + 1, [] => .ok []
  | fuel + 1, a :: as =>
    match evalExpr fuel a with
    | .error e1 => .error e1
    | .ok v =>
      match evalArgs fuel as with
      | .error e2 => .error e2
      | .ok vs => .ok (v :: vs)

end

mutual

/-- Names occurring in an expression. -/
def namesOf : PyExpr → List String
  | .num _ => []
  | .name s => [s]
  | .pos a => namesOf a
  | .neg a => namesOf a
  | .binop _ a b => namesOf a ++ namesOf b
  | .call f args => namesOf f ++ namesList args

/-- Names occurring in an argument list. -/
def namesList : List PyExpr → List String
  | [] => []
  | a :: as => namesOf a ++ namesList as

end

/-- Data payload of a successful calculation (the formatted field of the
code, a float rendering of the result, is not modelled). -/
structure CalcData where
  expression : String
  result : PyVal
deriving DecidableEq, Repr

/-- Embedding of CalculatorTool.execute: reject blank input, sanitize,
evaluate under the whitelist, convert any raise into a failed
ToolResult.  The evaluation fuel grows with the input and only
discharges termination. -/
def execute (expression : String) : ToolExec.ToolResult CalcData :=
  if expression.data.all isSpaceChar then
    { success := false, data := none, error := some "Expression cannot be empty" }
  else
    let sanitized := sanitize expression
    match tokenize (sanitized.data.length + 1) sanitized.data with
    | .error e =>
      { success := false, data := none, error := some ("Calculation error: " ++ e) }
    | .ok toks =>
      match parse toks with
      | .error e =>
        { success := false, data := none, error := some ("Calculation error: " ++ e) }
      | .ok ast =>
        match evalExpr ((sanitized.data.length + 1) * 8) ast with
        | .error e =>
          { success := false, data := none, error := some ("Calculation error: " ++ e) }
        | .ok v =>
          { success := true
            data := some { expression := expression, result := v }
            error := none }

/-- The second concrete input of the claim, built character by
character: the Python source text of a call importing the os module. -/
def importOsExpr : String :=
  String.mk ['_', '_', 'i', 'm', 'p', 'o', 'r', 't', '_', '_', '(',
             Char.ofNat 39, 'o', 's', Char.ofNat 39, ')']

end Calculator

end RaGG

namespace RaGG

open VectorStore

theorem mem_insertBy {α : Type} (le : α → α → Bool) (a b : α) (l : List α) :
    b ∈ insertBy le a l ↔ b = a ∨ b ∈ l := by
  induction l with
  | nil => simp [insertBy]
  | cons c cs ih =>
    by_cases h : le a c = true
    · simp [insertBy, h]
    · simp only [insertBy, if_neg h, List.mem_cons, ih]
      tauto

theorem mem_sortBy {α : Type} (le : α → α → Bool) (b : α) (l : List α) :
    b ∈ sortBy le l ↔ b ∈ l := by
  induction l with
  | nil => simp [sortBy]
  | cons c cs ih => simp [sortBy, mem_insertBy, ih]

theorem length_insertBy {α : Type} (le : α → α → Bool) (a : α) (l : List α) :
    (insertBy le a l).length = l.length + 1 := by
  induction l with
  | nil => rfl
  | cons c cs ih =>
    by_cases h : le a c = true
    · simp [insertBy, h]
    · simp [insertBy, h, ih]

theorem length_sortBy {α : Type} (le : α → α → Bool) (l : List α) :
    (sortBy le l).length = l.length := by
  induction l with
  | nil => rfl
  | cons c cs ih => simp [sortBy, length_insertBy, ih]

/-- Inversion lemma for search: every formatted result comes from a stored
point that passed the filter. -/
theorem mem_search (env : Env) (st : Store) (query : String) (top_k : Nat)
    (source_filter : Option String) (user_id : String) (r : RetrievalResult) :
    r ∈ search env st query top_k source_filter user_id →
    ∃ p, p ∈ st.docs ∧ matchesFilter source_filter user_id p = true ∧
      r.content = p.payload.content ∧ r.metadata = p.payload.meta := by
  intro hr
  have hr2 : r ∈ sortBy (fun a b => b.score ≤ a.score)
      ((st.docs.filter (matchesFilter source_filter user_id)).map (fun p =>
        ({ content := p.payload.content, metadata := p.payload.meta
           score := env.simScore (env.embedQuery query) p.vector } : RetrievalResult))) :=
    List.mem_of_mem_take hr
  rw [mem_sortBy] at hr2
  obtain ⟨p, hp, rfl⟩ := List.mem_map.mp hr2
  exact ⟨p, List.mem_of_mem_filter hp, List.of_mem_filter hp, rfl, rfl⟩

/-- Every result returned by search carries the user id it was queried
with (it comes from a point that passed the mandatory filter). -/
theorem search_user_id (env : Env) (st : Store) (query : String) (top_k : Nat)
    (source_filter : Option String) (user_id : String) :
    ∀ r ∈ search env st query top_k source_filter user_id,
      r.metadata.user_id = user_id := by
  intro r hr
  obtain ⟨p, _, hm, _, hmeta⟩ :=
    mem_search env st query top_k source_filter user_id r hr
  simp only [matchesFilter, Bool.and_eq_true, beq_iff_eq] at hm
  rw [hmeta]
  exact hm.1

/-- Unfolding lemma: the payload stamped by mkDocPoint carries its user id. -/
theorem mkDocPoint_user_id (env : Env) (sid sn sty uid : String)
    (ca ea base : Nat) (ic : Nat × Chunk) :
    (mkDocPoint env sid sn sty uid ca ea base ic).payload.user_id = uid := rfl

/-- Every document point created by add_documents with user A fails the
search filter of any other user B. -/
theorem addDocuments_filter_other (env : Env) (st : Store) (chunks : List Chunk)
    (sid sn sty A B : String) (now : Nat)
    (source_filter : Option String) (hAB : A ≠ B) :
    (addDocuments env st chunks sid sn sty A now).docs.filter
        (matchesFilter source_filter B)
      = st.docs.filter (matchesFilter source_filter B) := by
  by_cases hc : chunks.isEmpty
  · simp [addDocuments, hc]
  · have h0 : (chunks.enum.map
        (mkDocPoint env sid sn sty A now (now + DATA_RETENTION) st.nextId)).filter
          (matchesFilter source_filter B) = [] := by
      rw [List.filter_eq_nil_iff]
      intro p hp
      obtain ⟨ic, _, rfl⟩ := List.mem_map.mp hp
      simp [matchesFilter, mkDocPoint, hAB]
    simp only [addDocuments, hc, Bool.false_eq_true, if_false]
    rw [List.filter_append, h0, List.append_nil]

/-- C1: user isolation of search.  Chunks added under user A are invisible
to searches of any other user B: the search of B over the extended store
equals the search of B over the original store, and every returned result
carries the user id B, for any query, top_k and source filter. -/
theorem C1_user_isolation (env : Env) (st : Store) (chunks : List Chunk)
    (sid sn sty A B : String) (now : Nat) (query : String) (top_k : Nat)
    (source_filter : Option String) (hAB : A ≠ B) :
    search env (addDocuments env st chunks sid sn sty A now)
        query top_k source_filter B
      = search env st query top_k source_filter B ∧
    ∀ r ∈ search env (addDocuments env st chunks sid sn sty A now)
        query top_k source_filter B,
      r.metadata.user_id = B := by
  refine ⟨?_, fun r hr => search_user_id _ _ _ _ _ _ r hr⟩
  unfold search
  rw [addDocuments_filter_other env st chunks sid sn sty A B now source_filter hAB]

/-- Witness for C1 at a concrete input: a chunk ingested by alice is not
returned to bob. -/
theorem C1_user_isolation_witness :
    search testEnv (addDocuments testEnv emptyStore [testChunk] "s1" "n" "text" "alice" 0)
        "q" 5 none "bob"
      = search testEnv emptyStore "q" 5 none "bob" ∧
    ∀ r ∈ search testEnv (addDocuments testEnv emptyStore [testChunk] "s1" "n" "text" "alice" 0)
        "q" 5 none "bob",
      r.metadata.user_id = "bob" :=
  C1_user_isolation testEnv emptyStore [testChunk] "s1" "n" "text" "alice" "bob" 0
    "q" 5 none (by decide)

/-- C10: empty-batch ingestion is a complete no-op: add_documents returns
before touching either collection, so the store, including the sources
collection, is unchanged for every source and user. -/
theorem C10_empty_batch_noop (env : Env) (st : Store)
    (sid sn sty uid : String) (now : Nat) :
    addDocuments env st [] sid sn sty uid now = st := rfl

theorem contains_iff {α : Type} [BEq α] [LawfulBEq α] (l : List α) (a : α) :
    l.contains a = true ↔ a ∈ l := List.elem_iff

theorem if_false_bool {α : Sort _} (a b : α) :
    (if ((false : Bool) = true) then a else b) = b := rfl

/-- Unfolding lemma for delete_source with the let bindings inlined. -/
theorem deleteSource_def (st : Store) (sid uid : String) :
    deleteSource st sid uid =
      { docs :=
          if (((st.docs.filter (matchesDelete sid uid)).take DELETE_SCROLL_LIMIT).map
              (fun p => p.id)).isEmpty then st.docs
          else st.docs.filter (fun p =>
            !((((st.docs.filter (matchesDelete sid uid)).take DELETE_SCROLL_LIMIT).map
              (fun q => q.id)).contains p.id))
        sources := st.sources.filter (fun s => s.id != sid)
        nextId := st.nextId } := rfl

/-- Characterization of delete_source on a store whose document ids are
distinct and whose matching documents fit in one scroll page: the matching
documents and the source record are removed, nothing else changes. -/
theorem deleteSource_eq (st : Store) (sid uid : String)
    (hnod : (st.docs.map (fun p => p.id)).Nodup)
    (hle : (st.docs.filter (matchesDelete sid uid)).length ≤ DELETE_SCROLL_LIMIT) :
    deleteSource st sid uid =
      { docs := st.docs.filter (fun p => !(matchesDelete sid uid p))
        sources := st.sources.filter (fun s => s.id != sid)
        nextId := st.nextId } := by
  unfold deleteSource
  rw [List.take_of_length_le hle]
  by_cases hemp : ((st.docs.filter (matchesDelete sid uid)).map (fun p => p.id)).isEmpty
  · have hnil : st.docs.filter (matchesDelete sid uid) = [] := by
      rcases h : st.docs.filter (matchesDelete sid uid) with _ | ⟨a, l⟩
      · rfl
      · rw [h] at hemp; simp [List.isEmpty] at hemp
    have hall : st.docs.filter (fun p => !(matchesDelete sid uid p)) = st.docs := by
      rw [List.filter_eq_self]
      intro p hp
      have : matchesDelete sid uid p = false := by
        by_contra hcon
        rw [Bool.not_eq_false] at hcon
        have : p ∈ st.docs.filter (matchesDelete sid uid) :=
          List.mem_filter.mpr ⟨hp, hcon⟩
        rw [hnil] at this
        exact absurd this (List.not_mem_nil p)
      simp [this]
    simp only [hemp, if_true, hall]
  · simp only [hemp, Bool.false_eq_true, if_false]
    have : st.docs.filter
        (fun p => !((st.docs.filter (matchesDelete sid uid)).map (fun q => q.id)).contains p.id)
        = st.docs.filter (fun p => !(matchesDelete sid uid p)) := by
      apply List.filter_congr
      intro p hp
      congr 1
      by_cases hm : matchesDelete sid uid p = true
      · rw [hm]
        rw [contains_iff]
        exact List.mem_map.mpr ⟨p, List.mem_filter.mpr ⟨hp, hm⟩, rfl⟩
      · rw [Bool.eq_false_iff.mpr hm]
        rw [← Bool.not_eq_true, contains_iff]
        intro hcon
        obtain ⟨q, hq, hqid⟩ := List.mem_map.mp hcon
        have hq2 := List.mem_filter.mp hq
        have := List.inj_on_of_nodup_map hnod hq2.1 hp hqid
        rw [this] at hq2
        exact hm hq2.2
    rw [this]

/-- C4 (amended): when the documents matching (source_id, user_id) fit in
one scroll page of 10000, delete_source is effective — no later search for
that user returns a chunk carrying that source id, for any query, top_k
and source filter — and a second identical call is a no-op on the store. -/
theorem C4_delete_effective_idempotent (env : Env) (st : Store)
    (sid uid query : String) (top_k : Nat) (sf : Option String)
    (hnod : (st.docs.map (fun p => p.id)).Nodup)
    (hle : (st.docs.filter (matchesDelete sid uid)).length ≤ DELETE_SCROLL_LIMIT) :
    (∀ r ∈ search env (deleteSource st sid uid) query top_k sf uid,
        r.metadata.source_id ≠ sid) ∧
    deleteSource (deleteSource st sid uid) sid uid = deleteSource st sid uid := by
  have hD := deleteSource_eq st sid uid hnod hle
  constructor
  · intro r hr hcon
    obtain ⟨p, hp, hm, _, hmeta⟩ := mem_search env _ query top_k sf uid r hr
    rw [hD] at hp
    obtain ⟨hpdocs, hnm⟩ := List.mem_filter.mp hp
    simp only [matchesFilter, Bool.and_eq_true, beq_iff_eq] at hm
    have hsrc : p.payload.source_id = sid := by
      have : r.metadata.source_id = p.payload.source_id := by rw [hmeta]; rfl
      rw [← this, hcon]
    have : matchesDelete sid uid p = true := by
      simp only [matchesDelete, Bool.and_eq_true, beq_iff_eq]
      exact ⟨hsrc, hm.1⟩
    rw [this] at hnm
    exact absurd hnm (by decide)
  · rw [hD]
    have hnod2 : (((st.docs.filter (fun p => !(matchesDelete sid uid p))).map
        (fun p => p.id))).Nodup :=
      List.Nodup.sublist (List.Sublist.map _ (List.filter_sublist _)) hnod
    have hnil2 : (st.docs.filter (fun p => !(matchesDelete sid uid p))).filter
        (matchesDelete sid uid) = [] := by
      rw [List.filter_filter, List.filter_eq_nil_iff]
      intro p _
      cases h : matchesDelete sid uid p <;> simp [h]
    have hle2 : ((st.docs.filter (fun p => !(matchesDelete sid uid p))).filter
        (matchesDelete sid uid)).length ≤ DELETE_SCROLL_LIMIT := by
      rw [hnil2]; exact Nat.zero_le _
    rw [deleteSource_eq _ _ _ hnod2 hle2]
    have hdocs : (st.docs.filter (fun p => !(matchesDelete sid uid p))).filter
        (fun p => !(matchesDelete sid uid p))
        = st.docs.filter (fun p => !(matchesDelete sid uid p)) :=
      List.filter_eq_self.mpr (fun a ha => (List.mem_filter.mp ha).2)
    have hsrcs : (st.sources.filter (fun s => s.id != sid)).filter
        (fun s => s.id != sid)
        = st.sources.filter (fun s => s.id != sid) :=
      List.filter_eq_self.mpr (fun a ha => (List.mem_filter.mp ha).2)
    rw [hdocs, hsrcs]

/-- Witness for C4 at a concrete input: after ingesting one chunk and
deleting its source, a search of the same user returns nothing with the
deleted source id, and a repeated delete changes nothing. -/
theorem C4_delete_effective_idempotent_witness :
    (∀ r ∈ search testEnv
        (deleteSource (addDocuments testEnv emptyStore [testChunk] "s1" "n" "text" "u" 0) "s1" "u")
        "q" 5 none "u",
        r.metadata.source_id ≠ "s1") ∧
    deleteSource
        (deleteSource (addDocuments testEnv emptyStore [testChunk] "s1" "n" "text" "u" 0) "s1" "u")
        "s1" "u"
      = deleteSource (addDocuments testEnv emptyStore [testChunk] "s1" "n" "text" "u" 0) "s1" "u" :=
  C4_delete_effective_idempotent testEnv
    (addDocuments testEnv emptyStore [testChunk] "s1" "n" "text" "u" 0)
    "s1" "u" "q" 5 none (by decide) (by decide)

theorem zip_replicate_self {α β : Type} (c : β) (l : List α) :
    l.zip (List.replicate l.length c) = l.map (fun a => (a, c)) := by
  induction l with
  | nil => rfl
  | cons a as ih =>
    simp only [List.length_cons, List.replicate_succ, List.zip_cons_cons, ih, List.map_cons]

/-- Computation of bigStore: add_documents lays down one point per chunk,
with consecutive ids, and one source record. -/
theorem bigStore_eq :
    bigStore = { docs := (List.range 10001).map bigDoc
                 sources := [bigSource]
                 nextId := 10001 } := by
  have hrep : bigChunks = List.replicate 10001 ({ content := "c", metadata := [] } : Chunk) := rfl
  have hlen : bigChunks.length = 10001 := by rw [hrep, List.length_replicate]
  have hne : bigChunks.isEmpty = false := by
    rw [List.isEmpty_eq_false]
    intro h
    rw [h, List.length_nil] at hlen
    exact absurd hlen (by norm_num)
  have henum : bigChunks.enum
      = (List.range 10001).map (fun i => (i, ({ content := "c", metadata := [] } : Chunk))) := by
    rw [List.enum_eq_zip_range, hlen]
    have := zip_replicate_self ({ content := "c", metadata := [] } : Chunk) (List.range 10001)
    rw [List.length_range] at this
    rw [hrep]
    exact this
  have hdocs : emptyStore.docs ++ bigChunks.enum.map
      (mkDocPoint testEnv "s" "n" "text" "u" 0 (0 + DATA_RETENTION) emptyStore.nextId)
      = (List.range 10001).map bigDoc := by
    rw [henum, List.map_map]
    show ([] : List DocPoint) ++ _ = _
    rw [List.nil_append]
    exact List.map_congr_left (fun i _ => rfl)
  show addDocuments testEnv emptyStore bigChunks "s" "n" "text" "u" 0 = _
  rw [addDocuments]
  simp only [hne, Bool.false_eq_true, if_false]
  rw [hdocs, hlen]
  rfl

theorem bigDoc_id (i : Nat) : (bigDoc i).id = i := Nat.zero_add i

theorem bigDocs_filter_delete (n : Nat) :
    ((List.range n).map bigDoc).filter (matchesDelete "s" "u")
      = (List.range n).map bigDoc :=
  List.filter_eq_self.mpr (fun p hp => by
    obtain ⟨i, _, rfl⟩ := List.mem_map.mp hp
    rfl)

theorem bigDocs_take (n m : Nat) (h : m ≤ n) :
    ((List.range n).map bigDoc).take m = (List.range m).map bigDoc := by
  rw [← List.map_take, List.take_range, min_eq_left h]

theorem bigDocs_ids (n : Nat) :
    ((List.range n).map bigDoc).map (fun p => p.id) = List.range n := by
  rw [List.map_map]
  have hfun : ((fun p : DocPoint => p.id) ∘ bigDoc) = fun i => i :=
    funext (fun i => bigDoc_id i)
  rw [hfun]
  exact List.map_id _

theorem range_isEmpty_false (n : Nat) (h : n ≠ 0) :
    (List.range n).isEmpty = false := by
  rw [List.isEmpty_eq_false]
  intro hc
  have := congrArg List.length hc
  rw [List.length_range, List.length_nil] at this
  exact absurd this h

theorem range_succ_filter (n : Nat) :
    (List.range (n + 1)).filter (fun i => !((List.range n).contains i)) = [n] := by
  have hnil : (List.range n).filter (fun i => !((List.range n).contains i)) = [] := by
    rw [List.filter_eq_nil_iff]
    intro i hi
    rw [(contains_iff _ _).mpr hi]
    decide
  have hlast : (List.range n).contains n = false := by
    rw [Bool.eq_false_iff]
    intro h
    rw [contains_iff] at h
    exact absurd (List.mem_range.mp h) (Nat.lt_irrefl n)
  have hone : [n].filter (fun i => !((List.range n).contains i)) = [n] :=
    List.filter_eq_self.mpr (fun a ha => by
      rw [List.mem_singleton.mp ha, hlast]
      rfl)
  rw [List.range_succ, List.filter_append, hnil, hone, List.nil_append]

theorem bigDocs_filter_survivor (n : Nat) :
    ((List.range (n + 1)).map bigDoc).filter
      (fun p => !((List.range n).contains p.id)) = [bigDoc n] := by
  rw [List.filter_map]
  have hc : (List.range (n + 1)).filter
      ((fun p => !((List.range n).contains p.id)) ∘ bigDoc)
      = (List.range (n + 1)).filter (fun i => !((List.range n).contains i)) :=
    List.filter_congr (fun i _ =>
      congrArg (fun m => !((List.range n).contains m)) (bigDoc_id i))
  rw [hc, range_succ_filter n]
  rfl

/-- Computation of delete_source on bigStore: the scroll page holds only
the first 10000 matching points, so the last chunk of the source survives
the deletion. -/
theorem deleteSource_bigStore :
    deleteSource bigStore "s" "u"
      = { docs := [bigDoc 10000], sources := [], nextId := 10001 } := by
  rw [bigStore_eq, deleteSource_def]
  rw [show (10001:Nat) = 10000 + 1 from rfl]
  rw [bigDocs_filter_delete (10000 + 1)]
  rw [show DELETE_SCROLL_LIMIT = 10000 from rfl]
  rw [bigDocs_take (10000 + 1) 10000 (Nat.le_succ 10000)]
  rw [bigDocs_ids 10000]
  rw [range_isEmpty_false 10000 (by norm_num)]
  rw [if_false_bool]
  rw [bigDocs_filter_survivor 10000]
  rfl

/-- C4 counterexample: the claim fails on a source with more chunks than
one delete scroll page.  After delete_source on a 10001-chunk source, a
search of the same user still returns a chunk carrying the deleted source
id, because the code deletes only the first 10000 matching point ids and
never paginates. -/
theorem C4_counterexample :
    ∃ r ∈ search testEnv (deleteSource bigStore "s" "u") "q" 5 none "u",
      r.metadata.source_id = "s" := by
  rw [deleteSource_bigStore]
  decide

/-- Count computed by the cleanup loop: one per expired snapshot entry,
independent of the store the deletions run against. -/
theorem cleanupFold_count (now : Nat) (L : List SourcePoint) :
    ∀ (st : Store) (n₀ : Nat),
    (L.foldl (cleanupStep now) (st, n₀)).2 = n₀ + (L.filter (isExpired now)).length := by
  induction L with
  | nil => intro st n₀; rfl
  | cons s L ih =>
    intro st n₀
    rw [List.foldl_cons]
    by_cases h : isExpired now s = true
    · rw [show cleanupStep now (st, n₀) s
          = (deleteSource st s.id s.payload.user_id, n₀ + 1) from by
        simp [cleanupStep, h]]
      rw [ih, List.filter_cons]
      simp only [h, if_true, List.length_cons]
      omega
    · rw [show cleanupStep now (st, n₀) s = (st, n₀) from by simp [cleanupStep, h]]
      rw [ih, List.filter_cons]
      simp only [h, Bool.false_eq_true, if_false]

theorem cleanup_count (st : Store) (now : Nat) :
    (cleanupExpiredSources st now).2
      = ((listAllSources st).filter (isExpired now)).length := by
  unfold cleanupExpiredSources
  rw [cleanupFold_count]
  exact Nat.zero_add _

/-- Store computed by the cleanup loop over a snapshot L, provided the
document ids are distinct, every matching set fits in one delete scroll
page, and chunks carry the user of their source record: exactly the
sources and chunks of the expired snapshot entries are removed. -/
theorem cleanupFold_store (now : Nat) (L : List SourcePoint) :
    ∀ (st : Store) (n₀ : Nat),
    (st.docs.map (fun p => p.id)).Nodup →
    (∀ s ∈ L, (st.docs.filter (matchesDelete s.id s.payload.user_id)).length
        ≤ DELETE_SCROLL_LIMIT) →
    (∀ p ∈ st.docs, ∀ s ∈ L, p.payload.source_id = s.id →
        p.payload.user_id = s.payload.user_id) →
    (L.foldl (cleanupStep now) (st, n₀)).1
      = { docs := st.docs.filter
            (fun p => !((expiredIds now L).contains p.payload.source_id))
          sources := st.sources.filter
            (fun t => !((expiredIds now L).contains t.id))
          nextId := st.nextId } := by
  induction L with
  | nil =>
    intro st n₀ _ _ _
    have hd : st.docs.filter
        (fun p => !((expiredIds now []).contains p.payload.source_id)) = st.docs :=
      List.filter_eq_self.mpr (fun p _ => rfl)
    have hs : st.sources.filter (fun t => !((expiredIds now []).contains t.id)) = st.sources :=
      List.filter_eq_self.mpr (fun p _ => rfl)
    show st = _
    rw [hd, hs]
  | cons s L ih =>
    intro st n₀ hnod hle huser
    rw [List.foldl_cons]
    by_cases hexp : isExpired now s = true
    · rw [show cleanupStep now (st, n₀) s
          = (deleteSource st s.id s.payload.user_id, n₀ + 1) from by
        simp [cleanupStep, hexp]]
      rw [deleteSource_eq st s.id s.payload.user_id hnod (hle s (List.mem_cons_self s L))]
      have hnod2 : (((st.docs.filter
          (fun p => !(matchesDelete s.id s.payload.user_id p))).map
          (fun p => p.id))).Nodup :=
        List.Nodup.sublist (List.Sublist.map _ (List.filter_sublist _)) hnod
      have hle2 : ∀ t ∈ L,
          ((st.docs.filter (fun p => !(matchesDelete s.id s.payload.user_id p))).filter
            (matchesDelete t.id t.payload.user_id)).length ≤ DELETE_SCROLL_LIMIT :=
        fun t ht => le_trans
          (List.Sublist.length_le (List.Sublist.filter _ (List.filter_sublist _)))
          (hle t (List.mem_cons_of_mem s ht))
      have huser2 : ∀ p ∈ st.docs.filter
            (fun p => !(matchesDelete s.id s.payload.user_id p)),
          ∀ t ∈ L, p.payload.source_id = t.id →
            p.payload.user_id = t.payload.user_id :=
        fun p hp t ht => huser p (List.mem_of_mem_filter hp) t (List.mem_cons_of_mem s ht)
      rw [ih _ (n₀ + 1) hnod2 hle2 huser2]
      have hexpIds : expiredIds now (s :: L) = s.id :: expiredIds now L := by
        simp [expiredIds, List.filter_cons, hexp]
      rw [hexpIds]
      have hdocs : (st.docs.filter
            (fun p => !(matchesDelete s.id s.payload.user_id p))).filter
            (fun p => !((expiredIds now L).contains p.payload.source_id))
          = st.docs.filter
            (fun p => !((s.id :: expiredIds now L).contains p.payload.source_id)) := by
        rw [List.filter_filter]
        apply List.filter_congr
        intro p hp
        rw [List.contains_cons]
        by_cases hsid : (p.payload.source_id == s.id) = true
        · have huid : p.payload.user_id = s.payload.user_id :=
            huser p hp s (List.mem_cons_self s L) (beq_iff_eq.mp hsid)
          have hm : matchesDelete s.id s.payload.user_id p = true := by
            simp [matchesDelete, beq_iff_eq.mp hsid, huid]
          rw [hsid, hm]
          simp
        · have hm : matchesDelete s.id s.payload.user_id p = false := by
            simp only [matchesDelete, Bool.and_eq_false_iff]
            exact Or.inl (Bool.eq_false_iff.mpr hsid)
          rw [Bool.eq_false_iff.mpr hsid, hm]
          simp
      have hsrcs : (st.sources.filter (fun t => t.id != s.id)).filter
            (fun t => !((expiredIds now L).contains t.id))
          = st.sources.filter
            (fun t => !((s.id :: expiredIds now L).contains t.id)) := by
        rw [List.filter_filter]
        apply List.filter_congr
        intro t _
        rw [List.contains_cons]
        cases h1 : (t.id == s.id) <;> cases h2 : (expiredIds now L).contains t.id <;>
          simp [bne, h1, h2]
      rw [hdocs, hsrcs]
    · rw [show cleanupStep now (st, n₀) s = (st, n₀) from by simp [cleanupStep, hexp]]
      rw [ih st n₀ hnod (fun t ht => hle t (List.mem_cons_of_mem s ht))
        (fun p hp t ht hs2 => huser p hp t (List.mem_cons_of_mem s ht) hs2)]
      have hexpIds : expiredIds now (s :: L) = expiredIds now L := by
        simp [expiredIds, List.filter_cons, hexp]
      rw [hexpIds]

/-- C5 (amended): on a store whose sources fit in one listing scroll page
of 1000, whose ids are distinct, whose per-source matching chunks fit in
one delete scroll page, and whose chunks carry the user of their source
record, one cleanup call deletes exactly the sources with expires_at
earlier than the call time together with their chunks, returns the number
of sources deleted, and an immediate second call returns 0. -/
theorem C5_cleanup_exact (st : Store) (now : Nat)
    (hlen : st.sources.length ≤ SOURCES_SCROLL_LIMIT)
    (hnodD : (st.docs.map (fun p => p.id)).Nodup)
    (hnodS : (st.sources.map (fun s => s.id)).Nodup)
    (hle : ∀ s ∈ st.sources,
      (st.docs.filter (matchesDelete s.id s.payload.user_id)).length
        ≤ DELETE_SCROLL_LIMIT)
    (huser : ∀ p ∈ st.docs, ∀ s ∈ st.sources, p.payload.source_id = s.id →
      p.payload.user_id = s.payload.user_id) :
    (cleanupExpiredSources st now).1.sources
        = st.sources.filter (fun s => !(isExpired now s)) ∧
    (cleanupExpiredSources st now).1.docs
        = st.docs.filter
            (fun p => !((expiredIds now st.sources).contains p.payload.source_id)) ∧
    (cleanupExpiredSources st now).2 = (st.sources.filter (isExpired now)).length ∧
    (cleanupExpiredSources (cleanupExpiredSources st now).1 now).2 = 0 := by
  have hsnap : listAllSources st = st.sources := List.take_of_length_le hlen
  have hstore : (cleanupExpiredSources st now).1
      = { docs := st.docs.filter
            (fun p => !((expiredIds now st.sources).contains p.payload.source_id))
          sources := st.sources.filter
            (fun t => !((expiredIds now st.sources).contains t.id))
          nextId := st.nextId } := by
    unfold cleanupExpiredSources
    rw [hsnap]
    exact cleanupFold_store now st.sources st 0 hnodD hle huser
  have hcontains : ∀ s ∈ st.sources,
      (expiredIds now st.sources).contains s.id = isExpired now s := by
    intro s hs
    by_cases h : isExpired now s = true
    · rw [h, (contains_iff _ _).mpr]
      exact List.mem_map_of_mem _ (List.mem_filter.mpr ⟨hs, h⟩)
    · rw [Bool.eq_false_iff.mpr h, Bool.eq_false_iff]
      intro hc
      rw [contains_iff] at hc
      obtain ⟨t, ht, hts⟩ := List.mem_map.mp hc
      obtain ⟨htmem, htexp⟩ := List.mem_filter.mp ht
      have := List.inj_on_of_nodup_map hnodS htmem hs hts
      rw [this] at htexp
      exact h htexp
  have hsources : (cleanupExpiredSources st now).1.sources
      = st.sources.filter (fun s => !(isExpired now s)) := by
    rw [hstore]
    exact List.filter_congr (fun s hs => by rw [hcontains s hs])
  refine ⟨hsources, by rw [hstore], ?_, ?_⟩
  · rw [cleanup_count, hsnap]
  · rw [cleanup_count]
    have hlen2 : (cleanupExpiredSources st now).1.sources.length ≤ SOURCES_SCROLL_LIMIT := by
      rw [hsources]
      exact le_trans (List.Sublist.length_le (List.filter_sublist _)) hlen
    rw [show listAllSources (cleanupExpiredSources st now).1
        = (cleanupExpiredSources st now).1.sources from List.take_of_length_le hlen2]
    rw [hsources, List.filter_filter]
    have : st.sources.filter (fun a => isExpired now a && !(isExpired now a)) = [] := by
      rw [List.filter_eq_nil_iff]
      intro s _
      cases h : isExpired now s <;> simp [h]
    rw [this]
    rfl

/-- Witness for C5 at a concrete input: two single-chunk sources of one
user, one expired at the call time; the sweep removes exactly the expired
one and its chunk, reports one deletion, and a second sweep reports zero. -/
theorem C5_cleanup_exact_witness :
    (cleanupExpiredSources wStore 5).1.sources
        = wStore.sources.filter (fun s => !(isExpired 5 s)) ∧
    (cleanupExpiredSources wStore 5).1.docs
        = wStore.docs.filter
            (fun p => !((expiredIds 5 wStore.sources).contains p.payload.source_id)) ∧
    (cleanupExpiredSources wStore 5).2 = (wStore.sources.filter (isExpired 5)).length ∧
    (cleanupExpiredSources (cleanupExpiredSources wStore 5).1 5).2 = 0 :=
  C5_cleanup_exact wStore 5
    (by decide) (by decide) (by decide) (by decide) (by decide)

theorem srcId_inj : Function.Injective srcId := by
  intro i j h
  have h2 : (List.replicate i 'a').length = (List.replicate j 'a').length := by
    have := congrArg (fun s : String => s.data.length) h
    exact this
  rw [List.length_replicate, List.length_replicate] at h2
  exact h2

theorem mkBigSource_id (i : Nat) : (mkBigSource i).id = srcId i := rfl

theorem contains_map_srcId (n i : Nat) :
    ((List.range n).map srcId).contains (srcId i) = (List.range n).contains i := by
  by_cases h : i ∈ List.range n
  · rw [(contains_iff _ _).mpr (List.mem_map_of_mem srcId h), (contains_iff _ _).mpr h]
  · have h1 : ((List.range n).map srcId).contains (srcId i) = false := by
      rw [Bool.eq_false_iff]
      intro hc
      rw [contains_iff] at hc
      obtain ⟨j, hj, hji⟩ := List.mem_map.mp hc
      exact h (srcId_inj hji ▸ hj)
    have h2 : (List.range n).contains i = false := by
      rw [Bool.eq_false_iff]
      intro hc
      exact h ((contains_iff _ _).mp hc)
    rw [h1, h2]

theorem srcStore_def :
    srcStore = { docs := [], sources := (List.range 1001).map mkBigSource, nextId := 0 } := rfl

theorem srcSnapshot_eq :
    listAllSources srcStore = (List.range 1000).map mkBigSource := by
  simp only [listAllSources]
  rw [srcStore_def]
  dsimp only
  rw [show SOURCES_SCROLL_LIMIT = 1000 from rfl, ← List.map_take, List.take_range,
    min_eq_left (by norm_num : (1000:Nat) ≤ 1001)]

theorem srcSnapshot_expiredIds (n : Nat) :
    expiredIds 2 ((List.range n).map mkBigSource) = (List.range n).map srcId := by
  unfold expiredIds
  have hfil : ((List.range n).map mkBigSource).filter (isExpired 2)
      = (List.range n).map mkBigSource :=
    List.filter_eq_self.mpr (fun s hs => by
      obtain ⟨i, _, rfl⟩ := List.mem_map.mp hs
      rfl)
  rw [hfil, List.map_map]
  exact List.map_congr_left (fun i _ => rfl)

set_option maxRecDepth 8000 in
/-- Computation of the cleanup sweep on srcStore: only the first 1000
snapshot entries are visited, so the 1001st expired source survives. -/
theorem cleanup_srcStore :
    (cleanupExpiredSources srcStore 2).1
      = { docs := [], sources := [mkBigSource 1000], nextId := 0 } := by
  have hstore := cleanupFold_store 2 (listAllSources srcStore) srcStore 0
    (by rw [srcStore_def]; exact List.nodup_nil)
    (fun s _ => by rw [srcStore_def]; exact Nat.zero_le _)
    (fun p hp => absurd hp (by rw [srcStore_def]; exact List.not_mem_nil p))
  simp only [cleanupExpiredSources]
  rw [hstore, srcSnapshot_eq, srcSnapshot_expiredIds 1000]
  have hsrcs : ((List.range 1001).map mkBigSource).filter
      (fun t => !(((List.range 1000).map srcId).contains t.id))
      = [mkBigSource 1000] := by
    rw [List.filter_map]
    have hc1 : (List.range 1001).filter
        ((fun t : SourcePoint => !(((List.range 1000).map srcId).contains t.id)) ∘ mkBigSource)
        = (List.range 1001).filter (fun i => !((List.range 1000).contains i)) :=
      List.filter_congr (fun i _ => by
        have e1 : (((List.range 1000).map srcId).contains (mkBigSource i).id)
            = ((List.range 1000).contains i) := by
          rw [mkBigSource_id i, contains_map_srcId]
        exact congrArg (fun b => !b) e1)
    rw [hc1, show (1001:Nat) = 1000 + 1 from rfl, range_succ_filter 1000]
    rfl
  rw [srcStore_def]
  dsimp only
  rw [hsrcs]
  rfl

theorem dedup_sublist (l : List RetrievalResult) :
    ∀ seen, (MultiHop.dedupByContent l seen).Sublist l := by
  induction l with
  | nil => intro seen; exact List.Sublist.refl []
  | cons r rest ih =>
    intro seen
    by_cases h : seen.contains r.content = true
    · simp only [MultiHop.dedupByContent, h, if_true]
      exact List.Sublist.cons r (ih seen)
    · simp only [MultiHop.dedupByContent, h, Bool.false_eq_true, if_false]
      exact List.Sublist.cons₂ r (ih (r.content :: seen))

theorem dedup_not_seen (l : List RetrievalResult) :
    ∀ seen, ∀ r ∈ MultiHop.dedupByContent l seen, seen.contains r.content = false := by
  induction l with
  | nil => intro seen r hr; simp [MultiHop.dedupByContent] at hr
  | cons q rest ih =>
    intro seen r hr
    by_cases h : seen.contains q.content = true
    · simp only [MultiHop.dedupByContent, h, if_true] at hr
      exact ih seen r hr
    · simp only [MultiHop.dedupByContent, h, Bool.false_eq_true, if_false,
        List.mem_cons] at hr
      rcases hr with rfl | hr
      · exact Bool.eq_false_iff.mpr h
      · have h2 := ih (q.content :: seen) r hr
        rw [List.contains_cons, Bool.or_eq_false_iff] at h2
        exact h2.2

theorem dedup_contents_nodup (l : List RetrievalResult) :
    ∀ seen, ((MultiHop.dedupByContent l seen).map (fun r => r.content)).Nodup := by
  induction l with
  | nil => intro seen; simp [MultiHop.dedupByContent]
  | cons q rest ih =>
    intro seen
    by_cases h : seen.contains q.content = true
    · simp only [MultiHop.dedupByContent, h, if_true]
      exact ih seen
    · simp only [MultiHop.dedupByContent, h, Bool.false_eq_true, if_false, List.map_cons]
      refine List.Nodup.cons ?_ (ih (q.content :: seen))
      intro hc
      obtain ⟨r, hr, hrc⟩ := List.mem_map.mp hc
      have h2 := dedup_not_seen rest (q.content :: seen) r hr
      rw [List.contains_cons, Bool.or_eq_false_iff] at h2
      rw [hrc] at h2
      exact absurd h2.1 (by simp)

theorem dedup_find (l : List RetrievalResult) :
    ∀ seen, ∀ r ∈ MultiHop.dedupByContent l seen,
      l.find? (fun p => p.content == r.content) = some r := by
  induction l with
  | nil => intro seen r hr; simp [MultiHop.dedupByContent] at hr
  | cons q rest ih =>
    intro seen r hr
    by_cases h : seen.contains q.content = true
    · simp only [MultiHop.dedupByContent, h, if_true] at hr
      have hne : (q.content == r.content) = false := by
        rw [beq_eq_false_iff_ne]
        intro he
        have h2 := dedup_not_seen rest seen r hr
        rw [← he] at h2
        rw [h] at h2
        exact absurd h2 (by simp)
      rw [List.find?_cons_of_neg _ (by rw [hne]; exact Bool.false_ne_true)]
      exact ih seen r hr
    · simp only [MultiHop.dedupByContent, h, Bool.false_eq_true, if_false,
        List.mem_cons] at hr
      rcases hr with rfl | hr
      · exact List.find?_cons_of_pos _ (by simp)
      · have h2 := dedup_not_seen rest (q.content :: seen) r hr
        rw [List.contains_cons, Bool.or_eq_false_iff] at h2
        have hne : (q.content == r.content) = false := by
          rcases h2 with ⟨h21, _⟩
          rw [beq_eq_false_iff_ne] at h21 ⊢
          exact fun he => h21 (he ▸ rfl)
        rw [List.find?_cons_of_neg _ (by rw [hne]; exact Bool.false_ne_true)]
        exact ih (q.content :: seen) r hr

/-- C3: multi-hop retrieval returns at most top_k results, no two of them
share a content, the returned sequence is a subsequence of the
accumulated hop pool, and each returned result is the first occurrence of
its content in that pool. -/
theorem C3_multi_hop_bounded_dedup (env : Env) (st : Store)
    (scorer : Option (String → String → Int)) (query : String)
    (top_k max_hops : Nat) (sf : Option String) (uid : String) :
    (MultiHop.retrieve env st scorer query top_k max_hops sf uid).length ≤ top_k ∧
    ((MultiHop.retrieve env st scorer query top_k max_hops sf uid).map
      (fun r => r.content)).Nodup ∧
    (MultiHop.retrieve env st scorer query top_k max_hops sf uid).Sublist
      (MultiHop.retrieveHops env st scorer query top_k sf uid max_hops query []) ∧
    ∀ r ∈ MultiHop.retrieve env st scorer query top_k max_hops sf uid,
      (MultiHop.retrieveHops env st scorer query top_k sf uid max_hops query []).find?
        (fun p => p.content == r.content) = some r := by
  refine ⟨?_, ?_, ?_, ?_⟩
  · rw [MultiHop.retrieve, List.length_take]
    exact min_le_left _ _
  · rw [MultiHop.retrieve, List.map_take]
    exact List.Nodup.sublist (List.take_sublist _ _) (dedup_contents_nodup _ [])
  · exact List.Sublist.trans (List.take_sublist _ _) (dedup_sublist _ [])
  · intro r hr
    exact dedup_find _ [] r (List.mem_of_mem_take hr)

/-- Witness for C3 at a concrete input: a two-hop run over a one-chunk
store stays within top_k and its returned result is the first occurrence
of its content in the pool. -/
theorem C3_multi_hop_bounded_dedup_witness :
    (MultiHop.retrieve testEnv storeA none "q" 5 2 none "u").length ≤ 5 ∧
    (MultiHop.retrieveHops testEnv storeA none "q" 5 none "u" 2 "q" []).find?
      (fun p => p.content == resultAlpha.content) = some resultAlpha :=
  ⟨(C3_multi_hop_bounded_dedup testEnv storeA none "q" 5 2 none "u").1,
   (C3_multi_hop_bounded_dedup testEnv storeA none "q" 5 2 none "u").2.2.2
     resultAlpha (by decide)⟩

/-- Normal form of QueryExpander.expand: the original query, followed by
the two rephrasings exactly when the lowercased query contains the word
what; the retrieved context plays no part. -/
theorem expand_eq (q : String) (ctx : Option (List String)) :
    QueryExpander.expand q ctx
      = if containsSub (lowerStr q) "what" then
          [q, pyReplace q "what" "how", pyReplace q "what" "why"]
        else [q] := by
  unfold QueryExpander.expand
  by_cases h : containsSub (lowerStr q) "what" = true <;> simp [h]

theorem nextQuery_original (q cq : String) (rr : List RetrievalResult) :
    MultiHop.nextQuery q cq rr = q := by
  unfold MultiHop.nextQuery
  rw [expand_eq]
  by_cases h : containsSub (lowerStr q) "what" = true <;> simp [h]

/-- C8 (amended): the next hop query is expanded_queries[0], where
expanded_queries comes from QueryExpander.expand; expand returns at most
3 variants with the original query first and ignores retrieved_context,
so every hop of the loop searches with the original query — the next hop
query never depends on the retrieved chunk contents. -/
theorem C8_next_hop_query :
    (∀ (q : String) (ctx : Option (List String)),
      (QueryExpander.expand q ctx).length ≤ 3 ∧
      (QueryExpander.expand q ctx).head? = some q) ∧
    (∀ (q : String) (c1 c2 : Option (List String)),
      QueryExpander.expand q c1 = QueryExpander.expand q c2) ∧
    (∀ (env : Env) (st : Store) (scorer : Option (String → String → Int))
      (q : String) (tk : Nat) (sf : Option String) (uid : String) (n : Nat),
      ∀ p ∈ MultiHop.hopQueries env st scorer q tk sf uid n q, p = q) := by
  refine ⟨?_, ?_, ?_⟩
  · intro q ctx
    rw [expand_eq]
    by_cases h : containsSub (lowerStr q) "what" = true <;> simp [h]
  · intro q c1 c2
    rw [expand_eq, expand_eq]
  · intro env st scorer q tk sf uid n
    induction n with
    | zero => intro p hp; simp [MultiHop.hopQueries] at hp
    | succ m ih =>
      intro p hp
      rw [MultiHop.hopQueries] at hp
      rcases List.mem_cons.mp hp with rfl | hp2
      · rfl
      · by_cases hres : (search env st q (tk * 2) sf uid).isEmpty = true
        · simp only [hres, if_true] at hp2
          exact absurd hp2 (List.not_mem_nil p)
        · simp only [hres, Bool.false_eq_true, if_false] at hp2
          by_cases hm : 0 < m
          · simp only [hm, if_true, nextQuery_original] at hp2
            exact ih p hp2
          · simp only [hm, if_false] at hp2
            exact ih p hp2

/-- Witness for C8 (amended) at concrete inputs: expansion of a concrete
query keeps the original first and is blind to the context, and both hop
queries of a concrete two-hop run equal the original query. -/
theorem C8_next_hop_query_witness :
    (QueryExpander.expand "what is x" (some ["alpha"])).length ≤ 3 ∧
    (QueryExpander.expand "what is x" (some ["alpha"])).head? = some "what is x" ∧
    QueryExpander.expand "what is x" (some ["alpha"])
      = QueryExpander.expand "what is x" (some ["beta"]) ∧
    ("what is x" : String) = "what is x" :=
  ⟨(C8_next_hop_query.1 "what is x" (some ["alpha"])).1,
   (C8_next_hop_query.1 "what is x" (some ["alpha"])).2,
   C8_next_hop_query.2.1 "what is x" (some ["alpha"]) (some ["beta"]),
   C8_next_hop_query.2.2 testEnv storeA none "what is x" 1 none "u" 2
     "what is x" (by decide)⟩

/-- C8 counterexample: the next hop query does not depend on the
retrieved chunk contents.  Two stores whose only chunks have different
contents both drive a two-hop run whose second query is the original
query itself, not a follow-up derived from the retrieved content. -/
theorem C8_counterexample :
    storeA.docs.map (fun p => p.payload.content) = ["alpha"] ∧
    storeB.docs.map (fun p => p.payload.content) = ["beta"] ∧
    MultiHop.hopQueries testEnv storeA none "what is x" 1 none "u" 2 "what is x"
      = ["what is x", "what is x"] ∧
    MultiHop.hopQueries testEnv storeB none "what is x" 1 none "u" 2 "what is x"
      = ["what is x", "what is x"] := by
  decide

/-- Successful evaluation resolves only whitelisted names: any name
occurring in an expression that evaluates to a value is in the domain of
ALLOWED_NAMES, for every fuel (names sit under no conditional in this
grammar, so success forces every one of them through lookupName). -/
theorem eval_names_allowed :
    ∀ fuel : Nat,
      (∀ e v, Calculator.evalExpr fuel e = .ok v →
        ∀ n ∈ Calculator.namesOf e, (Calculator.lookupName n).isSome = true) ∧
      (∀ l vs, Calculator.evalArgs fuel l = .ok vs →
        ∀ n ∈ Calculator.namesList l, (Calculator.lookupName n).isSome = true) := by
  intro fuel
  induction fuel with
  | zero =>
    constructor
    · intro e v h
      simp [Calculator.evalExpr] at h
    · intro l vs h
      simp [Calculator.evalArgs] at h
  | succ f ih =>
    obtain ⟨ihE, ihA⟩ := ih
    constructor
    · intro e v h n hn
      cases e with
      | num q => simp [Calculator.namesOf] at hn
      | name s =>
        simp only [Calculator.namesOf, List.mem_singleton] at hn
        subst hn
        simp only [Calculator.evalExpr] at h
        cases hl : Calculator.lookupName n with
        | some v2 => simp [hl]
        | none => rw [hl] at h; simp at h
      | pos a =>
        simp only [Calculator.namesOf] at hn
        simp only [Calculator.evalExpr] at h
        cases ha : Calculator.evalExpr f a with
        | error e1 => rw [ha] at h; simp at h
        | ok va => exact ihE a va ha n hn
      | neg a =>
        simp only [Calculator.namesOf] at hn
        simp only [Calculator.evalExpr] at h
        cases ha : Calculator.evalExpr f a with
        | error e1 => rw [ha] at h; simp at h
        | ok va => exact ihE a va ha n hn
      | binop op a b =>
        simp only [Calculator.namesOf, List.mem_append] at hn
        simp only [Calculator.evalExpr] at h
        cases ha : Calculator.evalExpr f a with
        | error e1 => rw [ha] at h; simp at h
        | ok va =>
          rw [ha] at h
          cases hb : Calculator.evalExpr f b with
          | error e2 => rw [hb] at h; simp at h
          | ok vb =>
            rcases hn with hn | hn
            · exact ihE a va ha n hn
            · exact ihE b vb hb n hn
      | call g args =>
        simp only [Calculator.namesOf, List.mem_append] at hn
        simp only [Calculator.evalExpr] at h
        cases hg : Calculator.evalExpr f g with
        | error e1 => rw [hg] at h; simp at h
        | ok vg =>
          rw [hg] at h
          cases hargs : Calculator.evalArgs f args with
          | error e2 => rw [hargs] at h; simp at h
          | ok vargs =>
            rcases hn with hn | hn
            · exact ihE g vg hg n hn
            · exact ihA args vargs hargs n hn
    · intro l vs h n hn
      cases l with
      | nil => simp [Calculator.namesList] at hn
      | cons a as =>
        simp only [Calculator.namesList, List.mem_append] at hn
        simp only [Calculator.evalArgs] at h
        cases ha : Calculator.evalExpr f a with
        | error e1 => rw [ha] at h; simp at h
        | ok va =>
          rw [ha] at h
          cases has : Calculator.evalArgs f as with
          | error e2 => rw [has] at h; simp at h
          | ok vas =>
            rcases hn with hn | hn
            · exact ihE a va ha n hn
            · exact ihA as vas has n hn

/-- C6: the calculator evaluates 2 + 2 to the numeric result 4 with a
successful ToolResult; the import expression fails (its quotes are
stripped and the dunder name is not whitelisted); name resolution can
only reach the whitelist — a name outside it raises NameError, and any
name inside a successfully evaluated expression is whitelisted. -/
theorem C6_calculator_sanitized :
    (Calculator.execute "2 + 2").success = true ∧
    (Calculator.execute "2 + 2").data
      = some { expression := "2 + 2", result := Calculator.PyVal.num 4 } ∧
    (Calculator.execute Calculator.importOsExpr).success = false ∧
    Calculator.lookupName "__import__" = none ∧
    (∀ s, Calculator.lookupName s = none → ∀ fuel,
      Calculator.evalExpr (fuel + 1) (Calculator.PyExpr.name s)
        = .error ("NameError: name " ++ s ++ " is not defined")) ∧
    (∀ fuel e v, Calculator.evalExpr fuel e = .ok v →
      ∀ n ∈ Calculator.namesOf e, (Calculator.lookupName n).isSome = true) := by
  refine ⟨by decide, by decide, by decide, by decide, ?_, ?_⟩
  · intro s hs fuel
    simp [Calculator.evalExpr, hs]
  · intro fuel e v h
    exact (eval_names_allowed fuel).1 e v h

/-- Witness for C6 at concrete inputs: a whitelisted constant evaluates
and is whitelisted; a non-whitelisted name raises NameError. -/
theorem C6_calculator_sanitized_witness :
    (Calculator.lookupName "pi").isSome = true ∧
    Calculator.evalExpr 1 (Calculator.PyExpr.name "boom")
      = .error ("NameError: name " ++ "boom" ++ " is not defined") :=
  ⟨C6_calculator_sanitized.2.2.2.2.2 2 (Calculator.PyExpr.name "pi")
      (Calculator.PyVal.num 0) rfl "pi" (by decide),
   C6_calculator_sanitized.2.2.2.2.1 "boom" (by decide) 0⟩

/-- C7 counterexample: a 25-turn history holding one system turn is
trimmed to 21 messages, not at most 20: the code keeps all system turns
plus the last 20 (not 19) non-system turns. -/
theorem C7_counterexample :
    Engine.msgs25.length = 25 ∧
    (Engine.trimConversationHistory Engine.msgs25 20).length = 21 := by
  decide

/-- C7 (amended): trimming a 25-turn history with max_messages = 20
keeps all system turns, in order, ahead of the most recent 20 non-system
turns, in order; the resulting length is the number of system turns plus
min 20 (number of non-system turns), which can exceed 20. -/
theorem C7_trim (msgs : List Engine.Msg) (h : msgs.length = 25) :
    ∃ dropped kept,
      msgs.filter (fun m => !(m.role == "system")) = dropped ++ kept ∧
      Engine.trimConversationHistory msgs 20
        = msgs.filter (fun m => m.role == "system") ++ kept ∧
      kept.length = min 20 (msgs.filter (fun m => !(m.role == "system"))).length ∧
      (Engine.trimConversationHistory msgs 20).length
        = (msgs.filter (fun m => m.role == "system")).length
          + min 20 (msgs.filter (fun m => !(m.role == "system"))).length := by
  have hgt : msgs.length > 20 := by omega
  have hbr : Engine.trimConversationHistory msgs 20
      = (msgs.filter (fun m => m.role == "system"))
        ++ Engine.takeLast 20 (msgs.filter (fun m => !(m.role == "system"))) := by
    unfold Engine.trimConversationHistory
    rw [if_pos hgt]
  have htl : Engine.takeLast 20 (msgs.filter (fun m => !(m.role == "system")))
      = (msgs.filter (fun m => !(m.role == "system"))).drop
          ((msgs.filter (fun m => !(m.role == "system"))).length - 20) := by
    unfold Engine.takeLast
    rw [if_neg (by norm_num)]
  refine ⟨(msgs.filter (fun m => !(m.role == "system"))).take
      ((msgs.filter (fun m => !(m.role == "system"))).length - 20),
    (msgs.filter (fun m => !(m.role == "system"))).drop
      ((msgs.filter (fun m => !(m.role == "system"))).length - 20),
    (List.take_append_drop _ _).symm, ?_, ?_, ?_⟩
  · rw [hbr, htl]
  · rw [List.length_drop]
    omega
  · rw [hbr, List.length_append, htl, List.length_drop]
    omega

/-- Witness for C7 (amended) at the concrete 25-turn history msgs25. -/
theorem C7_trim_witness :
    ∃ dropped kept,
      Engine.msgs25.filter (fun m => !(m.role == "system")) = dropped ++ kept ∧
      Engine.trimConversationHistory Engine.msgs25 20
        = Engine.msgs25.filter (fun m => m.role == "system") ++ kept ∧
      kept.length = min 20 (Engine.msgs25.filter (fun m => !(m.role == "system"))).length ∧
      (Engine.trimConversationHistory Engine.msgs25 20).length
        = (Engine.msgs25.filter (fun m => m.role == "system")).length
          + min 20 (Engine.msgs25.filter (fun m => !(m.role == "system"))).length :=
  C7_trim Engine.msgs25 (by decide)

/-- C9 counterexample: a registered, validated tool that raises is
converted to a failed ToolResult but its invocation is not appended to
the execution history, which stays empty. -/
theorem C9_counterexample :
    (ToolExec.executeTool [ToolExec.boomTool] [] "t0" "boom" 0).1.success = false ∧
    (ToolExec.executeTool [ToolExec.boomTool] [] "t0" "boom" 0).2 = [] := by
  decide

/-- C9 (amended): execute_tool never propagates — every input yields a
ToolResult; unknown tools and invalid parameters fail without touching
the history; a validated execution that returns is recorded (name,
arguments, success flag, timestamp) whether the result succeeds or
fails; a validated execution that raises yields a failed ToolResult but
is NOT recorded; the history grows by at most the one appended record. -/
theorem C9_executor_contained {α β : Type} (registry : List (ToolExec.Tool α β))
    (history : List (ToolExec.HistEntry β)) (ts tool_name : String) (arguments : β) :
    (registry.find? (fun t => t.name == tool_name) = none →
      ToolExec.executeTool registry history ts tool_name arguments
        = ({ success := false, data := none
             error := some ("Tool " ++ tool_name ++ " not found") }, history)) ∧
    (∀ t, registry.find? (fun t2 => t2.name == tool_name) = some t →
      (t.validateParams arguments = false →
        ToolExec.executeTool registry history ts tool_name arguments
          = ({ success := false, data := none
               error := some ("Invalid parameters for tool " ++ tool_name) }, history)) ∧
      (t.validateParams arguments = true →
        (∀ r, t.execute arguments = .ok r →
          ToolExec.executeTool registry history ts tool_name arguments
            = (r, history ++ [{ tool := tool_name, arguments := arguments
                                success := r.success, timestamp := ts }])) ∧
        (∀ e, t.execute arguments = .error e →
          ToolExec.executeTool registry history ts tool_name arguments
            = ({ success := false, data := none
                 error := some ("Tool execution error: " ++ e) }, history)))) ∧
    ((ToolExec.executeTool registry history ts tool_name arguments).2 = history ∨
      ∃ en, (ToolExec.executeTool registry history ts tool_name arguments).2
        = history ++ [en]) := by
  refine ⟨?_, ?_, ?_⟩
  · intro h
    unfold ToolExec.executeTool
    rw [h]
  · intro t ht
    constructor
    · intro hv
      unfold ToolExec.executeTool
      rw [ht]
      dsimp only
      rw [hv]
      rfl
    · intro hv
      constructor
      · intro r hr
        unfold ToolExec.executeTool
        rw [ht]
        dsimp only
        rw [hv, hr]
        rfl
      · intro e he
        unfold ToolExec.executeTool
        rw [ht]
        dsimp only
        rw [hv, he]
        rfl
  · unfold ToolExec.executeTool
    cases hfind : registry.find? (fun t => t.name == tool_name) with
    | none => exact Or.inl rfl
    | some t =>
      dsimp only
      by_cases hv : t.validateParams arguments = true
      · rw [hv]
        cases hex : t.execute arguments with
        | ok r => exact Or.inr ⟨_, rfl⟩
        | error e => exact Or.inl rfl
      · rw [Bool.eq_false_iff.mpr hv]
        exact Or.inl rfl

/-- Witness for C9 (amended) at a concrete input: a successful concrete
tool invocation returns its result and appends one history record. -/
theorem C9_executor_contained_witness :
    ToolExec.executeTool [ToolExec.okTool] ([] : List (ToolExec.HistEntry Nat)) "t0" "ok" 7
      = ({ success := true, data := some 7, error := none },
         [{ tool := "ok", arguments := 7, success := true, timestamp := "t0" }]) :=
  (((C9_executor_contained [ToolExec.okTool] [] "t0" "ok" 7).2.1
      ToolExec.okTool rfl).2 rfl).1
    { success := true, data := some 7, error := none } rfl

theorem chunks_not_terminal (l : List String) :
    ∀ e ∈ l.map (fun c => Engine.StreamEvent.chunk c), Engine.isTerminal e = false := by
  intro e he
  obtain ⟨c, _, rfl⟩ := List.mem_map.mp he
  rfl

theorem genPhase_spec (env : Engine.StreamEnv) (nres wc : Nat) :
    ∃ t, Engine.genPhase env nres wc
        = (env.genChunks.map (fun c => Engine.StreamEvent.chunk c)) ++ [t] ∧
      Engine.isTerminal t = true := by
  unfold Engine.genPhase
  cases env.genError with
  | some e => exact ⟨Engine.StreamEvent.error e, rfl, rfl⟩
  | none => exact ⟨Engine.StreamEvent.done (nres + wc), rfl, rfl⟩

theorem fallback_evs (env : Engine.StreamEnv) (u : Bool) (nres wc : Nat) :
    (Engine.fallbackPhase env u nres wc).1 = [] ∨
      ∃ m, (Engine.fallbackPhase env u nres wc).1 = [Engine.StreamEvent.webSearch m] := by
  unfold Engine.fallbackPhase
  by_cases h1 : (nres = 0 && !u) = true
  · rw [if_pos h1]
    by_cases h2 : env.webToolAvailable = true
    · rw [if_pos h2]
      cases hr : env.webToolRun with
      | error e => exact Or.inl rfl
      | ok p =>
        obtain ⟨success, m⟩ := p
        by_cases h3 : success = true
        · rw [h3]
          exact Or.inr ⟨m, rfl⟩
        · rw [Bool.eq_false_iff.mpr h3]
          exact Or.inl rfl
    · rw [if_neg h2]
      exact Or.inl rfl
  · rw [if_neg h1]
    exact Or.inl rfl

theorem afterRetrieval_spec (env : Engine.StreamEnv) (u : Bool) (nres wc : Nat) :
    ∃ pre t, Engine.afterRetrieval env u nres wc = pre ++ [t] ∧
      Engine.isTerminal t = true ∧ ∀ e ∈ pre, Engine.isTerminal e = false := by
  unfold Engine.afterRetrieval
  rcases hf : Engine.fallbackPhase env u nres wc with ⟨evs2, exc, wc2⟩
  have hevs2 : evs2 = [] ∨ ∃ m, evs2 = [Engine.StreamEvent.webSearch m] := by
    have h := fallback_evs env u nres wc
    rw [hf] at h
    exact h
  have hevs2nt : ∀ e ∈ evs2, Engine.isTerminal e = false := by
    rcases hevs2 with rfl | ⟨m, rfl⟩
    · intro e he
      exact absurd he (List.not_mem_nil e)
    · intro e he
      rw [List.mem_singleton.mp he]
      rfl
  cases exc with
  | some e => exact ⟨evs2, Engine.StreamEvent.error e, rfl, rfl, hevs2nt⟩
  | none =>
    obtain ⟨t, hg, ht⟩ := genPhase_spec env nres wc2
    refine ⟨evs2 ++ env.genChunks.map (fun c => Engine.StreamEvent.chunk c), t, ?_, ht, ?_⟩
    · dsimp only
      rw [hg]
      exact (List.append_assoc _ _ _).symm
    · intro e he
      rcases List.mem_append.mp he with h | h
      · exact hevs2nt e h
      · exact chunks_not_terminal _ e h

theorem retrievalTail_spec (env : Engine.StreamEnv) (u : Bool) (wc : Nat) :
    ∃ pre t, (match env.retrievalRun with
              | .error e => [Engine.StreamEvent.error e]
              | .ok nres => Engine.afterRetrieval env u nres wc) = pre ++ [t] ∧
      Engine.isTerminal t = true ∧ ∀ e ∈ pre, Engine.isTerminal e = false := by
  cases hr : env.retrievalRun with
  | error e =>
    exact ⟨[], Engine.StreamEvent.error e, rfl, rfl,
      fun x hx => absurd hx (List.not_mem_nil x)⟩
  | ok nres => exact afterRetrieval_spec env u nres wc

/-- C2 (amended): every query_stream run emits a nonempty event
sequence ending in exactly one terminal event (done or error), with no
terminal event earlier — EXCEPT in the configuration where web search is
requested and no web search tool is registered: there the code yields an
error event and continues (no return after the yield), so that one error
precedes further events, with the sequence still ending in exactly one
final terminal event. -/
theorem C2_stream_single_terminal (env : Engine.StreamEnv) (u : Bool) :
    ∃ pre last,
      Engine.queryStream env u = pre ++ [last] ∧
      Engine.isTerminal last = true ∧
      ((env.providerAvailable = true ∧ u = true ∧ env.webToolAvailable = false) →
        ∃ pre2, pre = Engine.StreamEvent.error Engine.webUnavailableMsg :: pre2 ∧
          ∀ e ∈ pre2, Engine.isTerminal e = false) ∧
      (¬(env.providerAvailable = true ∧ u = true ∧ env.webToolAvailable = false) →
        ∀ e ∈ pre, Engine.isTerminal e = false) := by
  by_cases hp : env.providerAvailable = true
  case neg =>
    have h0 : env.providerAvailable = false := Bool.eq_false_iff.mpr hp
    have h1 : Engine.queryStream env u
        = [Engine.StreamEvent.error "No LLM provider available"] := by
      unfold Engine.queryStream
      rw [h0]
      rfl
    refine ⟨[], Engine.StreamEvent.error "No LLM provider available",
      by rw [h1]; rfl, rfl, ?_, ?_⟩
    · intro hc
      exact absurd hc.1 hp
    · intro _ e he
      exact absurd he (List.not_mem_nil e)
  case pos =>
    have hq : Engine.queryStream env u
        = (match Engine.webPhase env u with
           | (evs, some e, _) => evs ++ [Engine.StreamEvent.error e]
           | (evs, none, webCount) =>
             evs ++ (match env.retrievalRun with
                     | .error e => [Engine.StreamEvent.error e]
                     | .ok nres => Engine.afterRetrieval env u nres webCount)) := by
      unfold Engine.queryStream
      rw [hp]
      rfl
    by_cases hu : u = true
    · by_cases hw : env.webToolAvailable = true
      · cases hrun : env.webToolRun with
        | error e =>
          have hwp : Engine.webPhase env u = ([], some e, 0) := by
            simp [Engine.webPhase, hu, hw, hrun]
          refine ⟨[], Engine.StreamEvent.error e, by rw [hq, hwp], rfl, ?_, ?_⟩
          · intro hc
            rw [hw] at hc
            exact Bool.noConfusion hc.2.2
          · intro _ x hx
            exact absurd hx (List.not_mem_nil x)
        | ok p =>
          obtain ⟨success, nres⟩ := p
          by_cases hs : success = true
          · have hwp : Engine.webPhase env u
                = ([Engine.StreamEvent.webSearch nres], none, nres) := by
              simp [Engine.webPhase, hu, hw, hrun, hs]
            obtain ⟨pre, t, hpt, htt, hpnt⟩ := retrievalTail_spec env u nres
            refine ⟨Engine.StreamEvent.webSearch nres :: pre, t,
              by rw [hq, hwp]; dsimp only; rw [hpt]; rfl, htt, ?_, ?_⟩
            · intro hc
              rw [hw] at hc
              exact Bool.noConfusion hc.2.2
            · intro _ x hx
              rcases List.mem_cons.mp hx with rfl | h2
              · rfl
              · exact hpnt x h2
          · have hwp : Engine.webPhase env u = ([], none, 0) := by
              simp [Engine.webPhase, hu, hw, hrun, Bool.eq_false_iff.mpr hs]
            obtain ⟨pre, t, hpt, htt, hpnt⟩ := retrievalTail_spec env u 0
            refine ⟨pre, t, by rw [hq, hwp]; dsimp only; rw [hpt]; rfl, htt, ?_, ?_⟩
            · intro hc
              rw [hw] at hc
              exact Bool.noConfusion hc.2.2
            · intro _
              exact hpnt
      · have hw0 : env.webToolAvailable = false := Bool.eq_false_iff.mpr hw
        have hwp : Engine.webPhase env u
            = ([Engine.StreamEvent.error Engine.webUnavailableMsg], none, 0) := by
          simp [Engine.webPhase, hu, hw0]
        obtain ⟨pre, t, hpt, htt, hpnt⟩ := retrievalTail_spec env u 0
        refine ⟨Engine.StreamEvent.error Engine.webUnavailableMsg :: pre, t,
          by rw [hq, hwp]; dsimp only; rw [hpt]; rfl, htt, ?_, ?_⟩
        · intro _
          exact ⟨pre, rfl, hpnt⟩
        · intro hne
          exact absurd ⟨hp, hu, hw0⟩ hne
    · have hu0 : u = false := Bool.eq_false_iff.mpr hu
      have hwp : Engine.webPhase env u = ([], none, 0) := by
        simp [Engine.webPhase, hu0]
      obtain ⟨pre, t, hpt, htt, hpnt⟩ := retrievalTail_spec env u 0
      refine ⟨pre, t, by rw [hq, hwp]; dsimp only; rw [hpt]; rfl, htt, ?_, ?_⟩
      · intro hc
        rw [hu0] at hc
        exact Bool.noConfusion hc.2.1
      · intro _
        exact hpnt

/-- Witness for C2 (amended) at the concrete counterexample
environment. -/
theorem C2_stream_single_terminal_witness :
    ∃ pre last,
      Engine.queryStream Engine.envCE true = pre ++ [last] ∧
      Engine.isTerminal last = true ∧
      ((Engine.envCE.providerAvailable = true ∧ (true : Bool) = true ∧
          Engine.envCE.webToolAvailable = false) →
        ∃ pre2, pre = Engine.StreamEvent.error Engine.webUnavailableMsg :: pre2 ∧
          ∀ e ∈ pre2, Engine.isTerminal e = false) ∧
      (¬(Engine.envCE.providerAvailable = true ∧ (true : Bool) = true ∧
          Engine.envCE.webToolAvailable = false) →
        ∀ e ∈ pre, Engine.isTerminal e = false) :=
  C2_stream_single_terminal Engine.envCE true

/-- C2 counterexample: with web search requested and no web search tool
registered, the stream yields an error event and then CONTINUES — a
chunk and a done event follow, so one run contains both an error and a
done event and events after the error. -/
theorem C2_counterexample :
    Engine.queryStream Engine.envCE true
      = [Engine.StreamEvent.error Engine.webUnavailableMsg,
         Engine.StreamEvent.chunk "hi", Engine.StreamEvent.done 1] ∧
    ((Engine.queryStream Engine.envCE true).filter Engine.isError).length = 1 ∧
    ((Engine.queryStream Engine.envCE true).filter Engine.isDone).length = 1 := by
  decide

/-- C5 counterexample: the claim fails on a store with more sources than
one listing scroll page.  With 1001 expired sources, the sweep visits only
the first 1000: an expired source survives the call, and an immediate
second call deletes it and returns 1, not 0. -/
theorem C5_counterexample :
    isExpired 2 (mkBigSource 1000) = true ∧
    (cleanupExpiredSources srcStore 2).1.sources = [mkBigSource 1000] ∧
    (cleanupExpiredSources (cleanupExpiredSources srcStore 2).1 2).2 = 1 := by
  refine ⟨rfl, by rw [cleanup_srcStore], ?_⟩
  rw [cleanup_srcStore, cleanup_count]
  rfl

end RaGG
